import Mathlib

/-!
The git2r facade: status classification, commit creation and the enumerators.

A shallow embedding of `src/git2r.c` (the R bindings to libgit2): the status
engine (`count_*`, `list_*`, `status`), the commit transaction (`commit`), the
revision walk (`revisions`), `branches`, `tags` and `config`, the progress
callback `clone_progress` and the registration table `callMethods`.

Conventions of the embedding.
* A `git_status_list` is the list of its entries; `git_status_byindex(l, i)`
  for `i = 0 .. entrycount-1` is the traversal of that list.
* C pointers that may be `NULL` are `Option`s.
* An R vector allocated with `allocVector(_, n)` is a list of `n` slots, each
  `none` until it is assigned.
* A memory fault (dereferencing `NULL`, `mkChar(NULL)`, a store outside the
  allocated vector) is the result `none` of the `Option`-valued functions.
* Calls into libgit2 are fields of a record of collaborator behaviours.
* An iterator of libgit2 is the list of what it yields and the return code
  that ends it; calls and handle acquisitions are recorded in a trace.
-/

namespace Git2r

/-! ## libgit2 declarations used by the code (git2/status.h, git2/diff.h) -/

/-- Flag `GIT_STATUS_CURRENT` of `git_status_t`. -/
def GIT_STATUS_CURRENT : Nat := 0
/-- Flag `GIT_STATUS_INDEX_NEW = (1u << 0)`. -/
def GIT_STATUS_INDEX_NEW : Nat := 1
/-- Flag `GIT_STATUS_INDEX_MODIFIED = (1u << 1)`. -/
def GIT_STATUS_INDEX_MODIFIED : Nat := 2
/-- Flag `GIT_STATUS_INDEX_DELETED = (1u << 2)`. -/
def GIT_STATUS_INDEX_DELETED : Nat := 4
/-- Flag `GIT_STATUS_INDEX_RENAMED = (1u << 3)`. -/
def GIT_STATUS_INDEX_RENAMED : Nat := 8
/-- Flag `GIT_STATUS_INDEX_TYPECHANGE = (1u << 4)`. -/
def GIT_STATUS_INDEX_TYPECHANGE : Nat := 16
/-- Flag `GIT_STATUS_WT_NEW = (1u << 7)`. -/
def GIT_STATUS_WT_NEW : Nat := 128
/-- Flag `GIT_STATUS_WT_MODIFIED = (1u << 8)`. -/
def GIT_STATUS_WT_MODIFIED : Nat := 256
/-- Flag `GIT_STATUS_WT_DELETED = (1u << 9)`. -/
def GIT_STATUS_WT_DELETED : Nat := 512
/-- Flag `GIT_STATUS_WT_TYPECHANGE = (1u << 10)`. -/
def GIT_STATUS_WT_TYPECHANGE : Nat := 1024
/-- Flag `GIT_STATUS_WT_RENAMED = (1u << 11)`. -/
def GIT_STATUS_WT_RENAMED : Nat := 2048
/-- Flag `GIT_STATUS_IGNORED = (1u << 14)`. -/
def GIT_STATUS_IGNORED : Nat := 16384

/-- Value `GIT_STATUS_SHOW_INDEX_AND_WORKDIR` of `git_status_show_t`. -/
def GIT_STATUS_SHOW_INDEX_AND_WORKDIR : Nat := 0
/-- Value `GIT_STATUS_SHOW_INDEX_ONLY` of `git_status_show_t`. -/
def GIT_STATUS_SHOW_INDEX_ONLY : Nat := 1
/-- Option `GIT_STATUS_OPT_INCLUDE_UNTRACKED = (1u << 0)`. -/
def GIT_STATUS_OPT_INCLUDE_UNTRACKED : Nat := 1
/-- Option `GIT_STATUS_OPT_INCLUDE_IGNORED = (1u << 1)`. -/
def GIT_STATUS_OPT_INCLUDE_IGNORED : Nat := 2
/-- Option `GIT_STATUS_OPT_RENAMES_HEAD_TO_INDEX = (1u << 7)`. -/
def GIT_STATUS_OPT_RENAMES_HEAD_TO_INDEX : Nat := 128
/-- Option `GIT_STATUS_OPT_SORT_CASE_SENSITIVELY = (1u << 9)`. -/
def GIT_STATUS_OPT_SORT_CASE_SENSITIVELY : Nat := 512

/-- The part of `git_diff_file` the code reads: `path`, a `const char *`. -/
structure git_diff_file where
  path : Option String
  deriving DecidableEq

/-- The part of `git_diff_delta` the code reads. -/
structure git_diff_delta where
  old_file : git_diff_file
  new_file : git_diff_file
  deriving DecidableEq

/-- A `git_status_entry`: the status word and the two delta pointers. -/
structure git_status_entry where
  status : Nat
  head_to_index : Option git_diff_delta
  index_to_workdir : Option git_diff_delta
  deriving DecidableEq

/-! ## R vectors -/

/-- Macro `SET_STRING_ELT(x, i, v)`: store into slot `i` of a character vector. -/
def SET_STRING_ELT (x : List (Option String)) (i : Nat) (v : String) :
    Option (List (Option String)) :=
  if i < x.length then some (x.set i (some v)) else none

/-- Macro `SET_VECTOR_ELT(x, i, v)`: store into slot `i` of a generic vector. -/
def SET_VECTOR_ELT {α : Type} (x : List (Option α)) (i : Nat) (v : α) :
    Option (List (Option α)) :=
  if i < x.length then some (x.set i (some v)) else none

/-- Function `mkChar(p)`: a CHARSXP from a C string; `mkChar(NULL)` faults. -/
def mkChar (p : Option String) : Option String := p

/-- The state of a fill pass: the vectors `sub_list` and `sub_list_names`, the
write index `j`, and the sequence of indices at which `SET_VECTOR_ELT` has
stored so far. -/
structure FillState where
  sub_list : List (Option (List String))
  sub_list_names : List (Option String)
  j : Nat
  writes : List Nat
  deriving DecidableEq

/-- The state after `allocVector(VECSXP, count)`, `allocVector(STRSXP, count)`
with `j = 0`. -/
def FillState.alloc (count : Nat) : FillState :=
  { sub_list := List.replicate count none
    sub_list_names := List.replicate count none
    j := 0
    writes := [] }

/-! ## Counting passes (git2r.c 610-710) -/

/-- Loop of `count_ignored_files`, `ignored` being the running counter. -/
def count_ignored_files_loop : List git_status_entry → Nat → Nat
  | [], ignored => ignored
  | s :: rest, ignored =>
    if s.status = GIT_STATUS_IGNORED then
      count_ignored_files_loop rest (ignored + 1)
    else
      count_ignored_files_loop rest ignored

/-- Function `count_ignored_files`. -/
def count_ignored_files (status_list : List git_status_entry) : Nat :=
  count_ignored_files_loop status_list 0

/-- Loop of `count_staged_changes`, `changes` being the running counter. -/
def count_staged_changes_loop : List git_status_entry → Nat → Nat
  | [], changes => changes
  | s :: rest, changes =>
    if s.status = GIT_STATUS_CURRENT then
      count_staged_changes_loop rest changes
    else if s.status &&& GIT_STATUS_INDEX_NEW ≠ 0 then
      count_staged_changes_loop rest (changes + 1)
    else if s.status &&& GIT_STATUS_INDEX_MODIFIED ≠ 0 then
      count_staged_changes_loop rest (changes + 1)
    else if s.status &&& GIT_STATUS_INDEX_DELETED ≠ 0 then
      count_staged_changes_loop rest (changes + 1)
    else if s.status &&& GIT_STATUS_INDEX_RENAMED ≠ 0 then
      count_staged_changes_loop rest (changes + 1)
    else if s.status &&& GIT_STATUS_INDEX_TYPECHANGE ≠ 0 then
      count_staged_changes_loop rest (changes + 1)
    else
      count_staged_changes_loop rest changes

/-- Function `count_staged_changes`. -/
def count_staged_changes (status_list : List git_status_entry) : Nat :=
  count_staged_changes_loop status_list 0

/-- Loop of `count_unstaged_changes`, `changes` being the running counter. -/
def count_unstaged_changes_loop : List git_status_entry → Nat → Nat
  | [], changes => changes
  | s :: rest, changes =>
    if s.status = GIT_STATUS_CURRENT ∨ s.index_to_workdir = none then
      count_unstaged_changes_loop rest changes
    else if s.status &&& GIT_STATUS_WT_MODIFIED ≠ 0 then
      count_unstaged_changes_loop rest (changes + 1)
    else if s.status &&& GIT_STATUS_WT_DELETED ≠ 0 then
      count_unstaged_changes_loop rest (changes + 1)
    else if s.status &&& GIT_STATUS_WT_RENAMED ≠ 0 then
      count_unstaged_changes_loop rest (changes + 1)
    else if s.status &&& GIT_STATUS_WT_TYPECHANGE ≠ 0 then
      count_unstaged_changes_loop rest (changes + 1)
    else
      count_unstaged_changes_loop rest changes

/-- Function `count_unstaged_changes`. -/
def count_unstaged_changes (status_list : List git_status_entry) : Nat :=
  count_unstaged_changes_loop status_list 0

/-- Loop of `count_untracked_files`, `untracked` being the running counter. -/
def count_untracked_files_loop : List git_status_entry → Nat → Nat
  | [], untracked => untracked
  | s :: rest, untracked =>
    if s.status = GIT_STATUS_WT_NEW then
      count_untracked_files_loop rest (untracked + 1)
    else
      count_untracked_files_loop rest untracked

/-- Function `count_untracked_files`. -/
def count_untracked_files (status_list : List git_status_entry) : Nat :=
  count_untracked_files_loop status_list 0

/-! ## Fill passes (git2r.c 1062-1264) -/

/-- The item built from `old_path` and `new_path` in `list_staged_changes` and
`list_unstaged_changes`: a two-string vector when both paths are non-`NULL` and
`strcmp` finds them different, else the one string
`old_path ? old_path : new_path`. -/
def path_item (old_path new_path : Option String) : Option (List String) :=
  match old_path, new_path with
  | some o, some n =>
    if o ≠ n then do
      let a ← mkChar (some o)
      let b ← mkChar (some n)
      some [a, b]
    else do
      let a ← mkChar (some o)
      some [a]
  | some o, none => do
    let a ← mkChar (some o)
    some [a]
  | none, new_path => do
    let a ← mkChar new_path
    some [a]

/-- Loop of `list_ignored_files`. -/
def list_ignored_files_loop : List git_status_entry → FillState → Option FillState
  | [], st => some st
  | s :: rest, st =>
    if s.status = GIT_STATUS_IGNORED then do
      let sub_list_names ← SET_STRING_ELT st.sub_list_names st.j "ignored"
      let d ← s.index_to_workdir
      let p ← mkChar d.old_file.path
      let item := [p]
      let sub_list ← SET_VECTOR_ELT st.sub_list st.j item
      list_ignored_files_loop rest
        { sub_list := sub_list, sub_list_names := sub_list_names, j := st.j + 1,
          writes := st.writes ++ [st.j] }
    else
      list_ignored_files_loop rest st

/-- The `istatus` chain of `list_staged_changes`; `none` is `NULL`. -/
def istatus (status : Nat) : Option String :=
  if status &&& GIT_STATUS_INDEX_NEW ≠ 0 then some "new"
  else if status &&& GIT_STATUS_INDEX_MODIFIED ≠ 0 then some "modified"
  else if status &&& GIT_STATUS_INDEX_DELETED ≠ 0 then some "deleted"
  else if status &&& GIT_STATUS_INDEX_RENAMED ≠ 0 then some "renamed"
  else if status &&& GIT_STATUS_INDEX_TYPECHANGE ≠ 0 then some "typechange"
  else none

/-- Loop of `list_staged_changes`. -/
def list_staged_changes_loop : List git_status_entry → FillState → Option FillState
  | [], st => some st
  | s :: rest, st =>
    if s.status = GIT_STATUS_CURRENT then
      list_staged_changes_loop rest st
    else
      match istatus s.status with
      | none => list_staged_changes_loop rest st
      | some name => do
        let sub_list_names ← SET_STRING_ELT st.sub_list_names st.j name
        let d ← s.head_to_index
        let item ← path_item d.old_file.path d.new_file.path
        let sub_list ← SET_VECTOR_ELT st.sub_list st.j item
        list_staged_changes_loop rest
          { sub_list := sub_list, sub_list_names := sub_list_names, j := st.j + 1,
            writes := st.writes ++ [st.j] }

/-- The `wstatus` chain of `list_unstaged_changes`; `none` is `NULL`. -/
def wstatus (status : Nat) : Option String :=
  if status &&& GIT_STATUS_WT_MODIFIED ≠ 0 then some "modified"
  else if status &&& GIT_STATUS_WT_DELETED ≠ 0 then some "deleted"
  else if status &&& GIT_STATUS_WT_RENAMED ≠ 0 then some "renamed"
  else if status &&& GIT_STATUS_WT_TYPECHANGE ≠ 0 then some "typechange"
  else none

/-- Loop of `list_unstaged_changes`. -/
def list_unstaged_changes_loop : List git_status_entry → FillState → Option FillState
  | [], st => some st
  | s :: rest, st =>
    if s.status = GIT_STATUS_CURRENT ∨ s.index_to_workdir = none then
      list_unstaged_changes_loop rest st
    else
      match wstatus s.status with
      | none => list_unstaged_changes_loop rest st
      | some name => do
        let sub_list_names ← SET_STRING_ELT st.sub_list_names st.j name
        let d ← s.index_to_workdir
        let item ← path_item d.old_file.path d.new_file.path
        let sub_list ← SET_VECTOR_ELT st.sub_list st.j item
        list_unstaged_changes_loop rest
          { sub_list := sub_list, sub_list_names := sub_list_names, j := st.j + 1,
            writes := st.writes ++ [st.j] }

/-- Loop of `list_untracked_files`. -/
def list_untracked_files_loop : List git_status_entry → FillState → Option FillState
  | [], st => some st
  | s :: rest, st =>
    if s.status = GIT_STATUS_WT_NEW then do
      let sub_list_names ← SET_STRING_ELT st.sub_list_names st.j "untracked"
      let d ← s.index_to_workdir
      let p ← mkChar d.old_file.path
      let item := [p]
      let sub_list ← SET_VECTOR_ELT st.sub_list st.j item
      list_untracked_files_loop rest
        { sub_list := sub_list, sub_list_names := sub_list_names, j := st.j + 1,
          writes := st.writes ++ [st.j] }
    else
      list_untracked_files_loop rest st

/-- An element of the result of `status`: a filled `sub_list` with its names
attribute. -/
structure NamedList where
  elts : List (Option (List String))
  names : List (Option String)
  deriving DecidableEq

/-- Function `list_ignored_files`: size by `count_ignored_files`, fill, then
`SET_VECTOR_ELT(list, list_index, sub_list)`. -/
def list_ignored_files (list : List (Option NamedList)) (list_index : Nat)
    (status_list : List git_status_entry) : Option (List (Option NamedList)) := do
  let count := count_ignored_files status_list
  let st ← list_ignored_files_loop status_list (FillState.alloc count)
  SET_VECTOR_ELT list list_index { elts := st.sub_list, names := st.sub_list_names }

/-- Function `list_staged_changes`: size by `count_staged_changes`, fill, then
`SET_VECTOR_ELT(list, list_index, sub_list)`. -/
def list_staged_changes (list : List (Option NamedList)) (list_index : Nat)
    (status_list : List git_status_entry) : Option (List (Option NamedList)) := do
  let count := count_staged_changes status_list
  let st ← list_staged_changes_loop status_list (FillState.alloc count)
  SET_VECTOR_ELT list list_index { elts := st.sub_list, names := st.sub_list_names }

/-- Function `list_unstaged_changes`: size by `count_unstaged_changes`, fill,
then `SET_VECTOR_ELT(list, list_index, sub_list)`. -/
def list_unstaged_changes (list : List (Option NamedList)) (list_index : Nat)
    (status_list : List git_status_entry) : Option (List (Option NamedList)) := do
  let count := count_unstaged_changes status_list
  let st ← list_unstaged_changes_loop status_list (FillState.alloc count)
  SET_VECTOR_ELT list list_index { elts := st.sub_list, names := st.sub_list_names }

/-- Function `list_untracked_files`: size by `count_untracked_files`, fill,
then `SET_VECTOR_ELT(list, list_index, sub_list)`. -/
def list_untracked_files (list : List (Option NamedList)) (list_index : Nat)
    (status_list : List git_status_entry) : Option (List (Option NamedList)) := do
  let count := count_untracked_files status_list
  let st ← list_untracked_files_loop status_list (FillState.alloc count)
  SET_VECTOR_ELT list list_index { elts := st.sub_list, names := st.sub_list_names }

/-! ## libgit2 objects and the repository handle -/

/-- An object id, represented by its 40-character hex rendering
(`git_oid_fmt`). -/
abbrev git_oid := String

/-- A `git_signature`; `time` and `offset` are `when.time`, `when.offset`. -/
structure git_signature where
  name : String
  email : String
  time : Int
  offset : Int
  deriving DecidableEq

/-- The part of a `git_index` the code reads: `git_index_entrycount`. -/
structure git_index where
  entrycount : Nat
  deriving DecidableEq

/-- A looked-up `git_tree`. -/
structure git_tree where
  id : git_oid
  deriving DecidableEq

/-- A looked-up `git_commit`, with the accessors `init_commit` reads
(`git_commit_author` .. `git_commit_message` may return `NULL`). -/
structure git_commit where
  id : git_oid
  author : Option git_signature
  committer : Option git_signature
  summary : Option String
  message : Option String
  deriving DecidableEq

/-- A change of the repository made by a libgit2 call of `commit`. -/
inductive Effect where
  /-- Call `git_index_write_tree` stored the tree object `tree_oid`. -/
  | tree_written (tree_oid : git_oid)
  /-- Call `git_commit_create` stored the commit object `commit_id` with the
  given tree and parents. -/
  | commit_written (commit_id : git_oid) (tree : git_oid) (parents : List git_oid)
  /-- Call `git_commit_create` moved the reference `update_ref` to `commit_id`. -/
  | ref_updated (update_ref : String) (commit_id : git_oid)
  deriving DecidableEq

/-- What `git_commit_create` did: it stored the commit and moved the
reference (`ok`), or returned `err < 0` with the reference untouched, the
commit object stored (`stored = some id`) or not. -/
inductive CreateOutcome where
  | ok (commit_id : git_oid)
  | failed (err : Int) (stored : Option git_oid)
  deriving DecidableEq

/-- An open `git_repository *`: the behaviour of the libgit2 calls made on it.
An `Except.error err` is a return value `err < 0`. The calls that read the
object store take the effects made so far in the call. -/
structure git_repository where
  git_signature_new : String → String → Int → Int → Except Int git_signature
  git_status_list_new : (show_opt : Nat) → (flags : Nat) →
    Except Int (List git_status_entry)
  git_repository_index : Except Int git_index
  git_index_write_tree : git_index → Except Int git_oid
  git_tree_lookup : List Effect → git_oid → Except Int git_tree
  calloc : (count : Nat) → Bool
  git_oid_fromstr : String → Except Int git_oid
  git_commit_lookup : List Effect → git_oid → Except Int git_commit
  git_commit_create : (update_ref : String) → (author committer : git_signature) →
    (message : String) → (tree : git_tree) → (parent_count : Nat) →
    (parents : List git_commit) → CreateOutcome

/-- How a `.Call` entry point ends other than by returning its value. -/
inductive Failure where
  /-- Raised by `error("Error %d/%d: %s\n", err, e->klass, e->message)`. -/
  | git (err : Int)
  /-- Raised by `error(err_msg)`. -/
  | message (err_msg : String)
  /-- A memory fault. -/
  | fault
  deriving DecidableEq

/-! ## status (git2r.c 1551-1641) -/

/-- Value `LOGICAL(x)[0]` of a length-one logical vector holding `TRUE` or `FALSE`. -/
def LOGICAL (x : Bool) : Nat := if x then 1 else 0

/-- The value of `status`: the vector `list` and its names `list_names`. -/
structure StatusResult where
  list : List (Option NamedList)
  list_names : List (Option String)
  deriving DecidableEq

/-- The body of `status` after `git_status_list_new` succeeded. -/
def status_fill (status_list : List git_status_entry)
    (staged unstaged untracked ignored : Bool) : Option StatusResult := do
  let count := LOGICAL staged + LOGICAL unstaged + LOGICAL untracked + LOGICAL ignored
  let list : List (Option NamedList) := List.replicate count none
  let list_names : List (Option String) := List.replicate count none
  let i := 0
  let (list, list_names, i) ←
    if LOGICAL staged ≠ 0 then do
      let list_names ← SET_STRING_ELT list_names i "staged"
      let list ← list_staged_changes list i status_list
      some (list, list_names, i + 1)
    else some (list, list_names, i)
  let (list, list_names, i) ←
    if LOGICAL unstaged ≠ 0 then do
      let list_names ← SET_STRING_ELT list_names i "unstaged"
      let list ← list_unstaged_changes list i status_list
      some (list, list_names, i + 1)
    else some (list, list_names, i)
  let (list, list_names, i) ←
    if LOGICAL untracked ≠ 0 then do
      let list_names ← SET_STRING_ELT list_names i "untracked"
      let list ← list_untracked_files list i status_list
      some (list, list_names, i + 1)
    else some (list, list_names, i)
  let (list, list_names) ←
    if LOGICAL ignored ≠ 0 then do
      let list_names ← SET_STRING_ELT list_names i "ignored"
      let list ← list_ignored_files list i status_list
      some (list, list_names)
    else some (list, list_names)
  some { list := list, list_names := list_names }

/-- The value of `opts.flags` that `status` passes to `git_status_list_new`. -/
def status_flags (untracked ignored : Bool) : Nat :=
  let flags := GIT_STATUS_OPT_RENAMES_HEAD_TO_INDEX ||| GIT_STATUS_OPT_SORT_CASE_SENSITIVELY
  let flags := if LOGICAL untracked ≠ 0 then flags ||| GIT_STATUS_OPT_INCLUDE_UNTRACKED else flags
  let flags := if LOGICAL ignored ≠ 0 then flags ||| GIT_STATUS_OPT_INCLUDE_IGNORED else flags
  flags

/-- Function `status`, on an opened repository. -/
def status (repository : git_repository) (staged unstaged untracked ignored : Bool) :
    Except Failure StatusResult :=
  match repository.git_status_list_new GIT_STATUS_SHOW_INDEX_AND_WORKDIR
      (status_flags untracked ignored) with
  | .error err => .error (.git err)
  | .ok status_list =>
    match status_fill status_list staged unstaged untracked ignored with
    | none => .error .fault
    | some r => .ok r

/-! ## commit (git2r.c 361-555) -/

/-- Message `err_alloc_memory_buffer`. -/
def err_alloc_memory_buffer : String := "Unable to allocate memory buffer"
/-- Message `err_nothing_added_to_commit`. -/
def err_nothing_added_to_commit : String := "Nothing added to commit"

/-- The S4 object `git_commit` filled by `init_commit`; a slot that is not set
is `none`. -/
structure sexp_commit where
  hex : String
  author : Option git_signature
  committer : Option git_signature
  summary : Option String
  message : Option String
  deriving DecidableEq

/-- Function `init_commit`. -/
def init_commit (commit : git_commit) : sexp_commit :=
  { hex := commit.id
    author := commit.author
    committer := commit.committer
    summary := commit.summary
    message := commit.message }

/-- The scan of the status list in `commit` that sets `changes_in_index`
(initially 0) and leaves the loop as soon as it is set. -/
def commit_changes_in_index : List git_status_entry → Nat
  | [] => 0
  | s :: rest =>
    if s.status = GIT_STATUS_CURRENT then
      commit_changes_in_index rest
    else if s.status &&& GIT_STATUS_INDEX_NEW ≠ 0 then 1
    else if s.status &&& GIT_STATUS_INDEX_MODIFIED ≠ 0 then 1
    else if s.status &&& GIT_STATUS_INDEX_DELETED ≠ 0 then 1
    else if s.status &&& GIT_STATUS_INDEX_RENAMED ≠ 0 then 1
    else if s.status &&& GIT_STATUS_INDEX_TYPECHANGE ≠ 0 then 1
    else commit_changes_in_index rest

/-- The loop `for (i = 0; i < count; i++)` of `commit` that fills `parents`:
`remaining` is `count - i` and `parents` holds `parents[0 .. i-1]`. Every
iteration parses `STRING_ELT(parent_list, 0)`. -/
def commit_parents_loop (repository : git_repository) (log : List Effect)
    (parent_list : List String) : (remaining : Nat) → (parents : List git_commit) →
    Except Failure (List git_commit)
  | 0, parents => .ok parents
  | remaining + 1, parents =>
    match parent_list[0]? with
    | none => .error .fault
    | some p =>
      match repository.git_oid_fromstr p with
      | .error err => .error (.git err)
      | .ok oid =>
        match repository.git_commit_lookup log oid with
        | .error err => .error (.git err)
        | .ok c => commit_parents_loop repository log parent_list remaining (parents ++ [c])

/-- The block `count = LENGTH(parent_list); if (count) ...` of `commit`. -/
def commit_parents (repository : git_repository) (log : List Effect)
    (parent_list : List String) : Except Failure (List git_commit) :=
  let count := parent_list.length
  if count ≠ 0 then
    if repository.calloc count then
      commit_parents_loop repository log parent_list count []
    else .error (.message err_alloc_memory_buffer)
  else .ok []

/-- The end of `commit`, from `git_commit_create` on. -/
def commit_create (repository : git_repository) (log : List Effect) (message : String)
    (sig_author sig_committer : git_signature) (tree : git_tree) (count : Nat)
    (parents : List git_commit) : Except Failure sexp_commit × List Effect :=
  match repository.git_commit_create "HEAD" sig_author sig_committer message tree
      count parents with
  | .failed err none => (.error (.git err), log)
  | .failed err (some id) =>
    (.error (.git err), log ++ [.commit_written id tree.id (parents.map (·.id))])
  | .ok commit_id =>
    let log := log ++ [.commit_written commit_id tree.id (parents.map (·.id)),
                       .ref_updated "HEAD" commit_id]
    match repository.git_commit_lookup log commit_id with
    | .error err => (.error (.git err), log)
    | .ok new_commit => (.ok (init_commit new_commit), log)

/-- Function `commit`, on an opened repository, with `message` the first
element of the character vector. The value is what the call returns or raises,
with the changes made to the repository, in order. -/
def commit (repository : git_repository) (message : String)
    (author committer : git_signature) (parent_list : List String) :
    Except Failure sexp_commit × List Effect :=
  match repository.git_signature_new author.name author.email author.time
      author.offset with
  | .error err => (.error (.git err), [])
  | .ok sig_author =>
  match repository.git_signature_new committer.name committer.email committer.time
      committer.offset with
  | .error err => (.error (.git err), [])
  | .ok sig_committer =>
  match repository.git_status_list_new GIT_STATUS_SHOW_INDEX_ONLY 0 with
  | .error err => (.error (.git err), [])
  | .ok status =>
  if commit_changes_in_index status = 0 then
    (.error (.message err_nothing_added_to_commit), [])
  else
  match repository.git_repository_index with
  | .error err => (.error (.git err), [])
  | .ok index =>
  if index.entrycount = 0 then
    (.error (.message err_nothing_added_to_commit), [])
  else
  match repository.git_index_write_tree index with
  | .error err => (.error (.git err), [])
  | .ok tree_oid =>
  let log := [Effect.tree_written tree_oid]
  match repository.git_tree_lookup log tree_oid with
  | .error err => (.error (.git err), log)
  | .ok tree =>
  match commit_parents repository log parent_list with
  | .error e => (.error e, log)
  | .ok parents =>
  commit_create repository log message sig_author sig_committer tree
    parent_list.length parents

/-! ## Per-entry view of the fill passes -/

/-- The label `list_staged_changes` stores for `s`; `none` when the loop
continues without storing. -/
def staged_label (s : git_status_entry) : Option String :=
  if s.status = GIT_STATUS_CURRENT then none else istatus s.status

/-- The item `list_staged_changes` builds for `s`; `none` is a fault. -/
def staged_item (s : git_status_entry) : Option (List String) := do
  let d ← s.head_to_index
  path_item d.old_file.path d.new_file.path

/-- The label `list_unstaged_changes` stores for `s`; `none` when the loop
continues without storing. -/
def unstaged_label (s : git_status_entry) : Option String :=
  if s.status = GIT_STATUS_CURRENT ∨ s.index_to_workdir = none then none
  else wstatus s.status

/-- The item `list_unstaged_changes` builds for `s`; `none` is a fault. -/
def unstaged_item (s : git_status_entry) : Option (List String) := do
  let d ← s.index_to_workdir
  path_item d.old_file.path d.new_file.path

/-- The label `list_untracked_files` stores for `s`, if any. -/
def untracked_label (s : git_status_entry) : Option String :=
  if s.status = GIT_STATUS_WT_NEW then some "untracked" else none

/-- The label `list_ignored_files` stores for `s`, if any. -/
def ignored_label (s : git_status_entry) : Option String :=
  if s.status = GIT_STATUS_IGNORED then some "ignored" else none

/-- The item `list_untracked_files` and `list_ignored_files` build for `s`:
the string `s->index_to_workdir->old_file.path`; `none` is a fault. -/
def workdir_item (s : git_status_entry) : Option (List String) := do
  let d ← s.index_to_workdir
  let p ← mkChar d.old_file.path
  some [p]

/-- Whether `d` is a delta with a non-`NULL` path in `old_file` or `new_file`. -/
def has_path : Option git_diff_delta → Bool
  | some d => d.old_file.path.isSome || d.new_file.path.isSome
  | none => false

/-- Whether `d` is a delta with a non-`NULL` path in `old_file`. -/
def has_old_path : Option git_diff_delta → Bool
  | some d => d.old_file.path.isSome
  | none => false

/-- What `list_staged_changes` relies on: an entry that gets a staged label
has a `head_to_index` delta with a path. -/
def staged_ok (s : git_status_entry) : Bool :=
  (istatus s.status).isNone || has_path s.head_to_index

/-- What `list_unstaged_changes` relies on: an entry with an `index_to_workdir`
delta that gets an unstaged label has a path in that delta. -/
def unstaged_ok (s : git_status_entry) : Bool :=
  (wstatus s.status).isNone || s.index_to_workdir.isNone || has_path s.index_to_workdir

/-- What `list_untracked_files` relies on: an entry whose status is
`GIT_STATUS_WT_NEW` has an `index_to_workdir` delta with an old path. -/
def untracked_ok (s : git_status_entry) : Bool :=
  s.status != GIT_STATUS_WT_NEW || has_old_path s.index_to_workdir

/-- What `list_ignored_files` relies on: an entry whose status is
`GIT_STATUS_IGNORED` has an `index_to_workdir` delta with an old path. -/
def ignored_ok (s : git_status_entry) : Bool :=
  s.status != GIT_STATUS_IGNORED || has_old_path s.index_to_workdir

/-- A status entry as libgit2 hands it out: every delta and path that the four
listings dereference for this entry is there. -/
def well_formed (s : git_status_entry) : Bool :=
  staged_ok s && unstaged_ok s && untracked_ok s && ignored_ok s

/-- One store of a fill pass: `SET_STRING_ELT(sub_list_names, j, name)`,
`SET_VECTOR_ELT(sub_list, j, item)`, `j++`. -/
def FillState.store (st : FillState) (name : String) (item : List String) :
    Option FillState := do
  let sub_list_names ← SET_STRING_ELT st.sub_list_names st.j name
  let sub_list ← SET_VECTOR_ELT st.sub_list st.j item
  some { sub_list := sub_list
         sub_list_names := sub_list_names
         j := st.j + 1
         writes := st.writes ++ [st.j] }

/-- A fill loop given by a label and an item per entry: an entry without a
label is passed over, an entry with a label and no item is a fault, an entry
with both is stored at `j`. -/
def fill_loop (label : git_status_entry → Option String)
    (item : git_status_entry → Option (List String)) :
    List git_status_entry → FillState → Option FillState
  | [], st => some st
  | s :: rest, st =>
    match label s with
    | none => fill_loop label item rest st
    | some name =>
      match item s with
      | none => none
      | some it => (st.store name it).bind (fill_loop label item rest)

/-- The entries of `l` that get a label. -/
def listed (label : git_status_entry → Option String) (l : List git_status_entry) :
    List git_status_entry :=
  l.filter (fun s => (label s).isSome)

/-- The final state of a fill pass over `l` that stores for the entries with a
label. -/
def FillState.final (label : git_status_entry → Option String)
    (item : git_status_entry → Option (List String)) (l : List git_status_entry) :
    FillState :=
  { sub_list := (listed label l).map item
    sub_list_names := (listed label l).map label
    j := (listed label l).length
    writes := List.range (listed label l).length }

/-- The sub-list a fill pass hands to `SET_VECTOR_ELT(list, list_index, _)`. -/
def FillState.named (st : FillState) : NamedList :=
  { elts := st.sub_list, names := st.sub_list_names }

/-! ## The wording of the specification -/

/-- The five staged categories with their status bits, in the stated order. -/
def index_categories : List (Nat × String) :=
  [(GIT_STATUS_INDEX_NEW, "new"), (GIT_STATUS_INDEX_MODIFIED, "modified"),
   (GIT_STATUS_INDEX_DELETED, "deleted"), (GIT_STATUS_INDEX_RENAMED, "renamed"),
   (GIT_STATUS_INDEX_TYPECHANGE, "typechange")]

/-- The four working-tree categories of the unstaged listing with their status
bits, in the order of the code. -/
def workdir_categories : List (Nat × String) :=
  [(GIT_STATUS_WT_MODIFIED, "modified"), (GIT_STATUS_WT_DELETED, "deleted"),
   (GIT_STATUS_WT_RENAMED, "renamed"), (GIT_STATUS_WT_TYPECHANGE, "typechange")]

/-- The label of the first category of `table` whose bit is set in `status`. -/
def first_set (table : List (Nat × String)) (status : Nat) : Option String :=
  (table.find? (fun p => decide (status &&& p.1 ≠ 0))).map Prod.snd

/-- The names of the selected categories, in the order staged, unstaged,
untracked, ignored. -/
def selected_names (staged unstaged untracked ignored : Bool) : List String :=
  (if staged then ["staged"] else []) ++ (if unstaged then ["unstaged"] else [])
    ++ (if untracked then ["untracked"] else []) ++ (if ignored then ["ignored"] else [])

/-- The sub-lists of the selected categories for the status list `l`, in the
order staged, unstaged, untracked, ignored. -/
def selected_lists (l : List git_status_entry) (staged unstaged untracked ignored : Bool) :
    List NamedList :=
  (if staged then [(FillState.final staged_label staged_item l).named] else [])
    ++ (if unstaged then [(FillState.final unstaged_label unstaged_item l).named] else [])
    ++ (if untracked then [(FillState.final untracked_label workdir_item l).named] else [])
    ++ (if ignored then [(FillState.final ignored_label workdir_item l).named] else [])

/-- Whether the delta has two non-`NULL` paths that differ. -/
def two_paths (d : git_diff_delta) : Bool :=
  match d.old_file.path, d.new_file.path with
  | some o, some n => o != n
  | _, _ => false

/-- The rule of the code for the paths of an item built from the delta `d`:
old and new path when both are there and differ, else the one path
`old_path ? old_path : new_path`. -/
def pair_or_single (d : git_diff_delta) (x : Option (List String)) : Prop :=
  if two_paths d = true then
    ∃ o n, d.old_file.path = some o ∧ d.new_file.path = some n ∧ x = some [o, n]
  else
    ∃ p, x = some [p] ∧ (d.old_file.path = some p
      ∨ (d.old_file.path = none ∧ d.new_file.path = some p))

/-- A fill pass that ended in `st` wrote exactly the slots `0 .. count-1`,
each once and in this order, and left no slot unassigned. -/
def exact_fill (st : FillState) (count : Nat) : Prop :=
  st.j = count ∧ st.writes = List.range count
    ∧ st.sub_list.length = count ∧ st.sub_list_names.length = count
    ∧ (∀ x ∈ st.sub_list, x ≠ none) ∧ (∀ x ∈ st.sub_list_names, x ≠ none)

/-- The number of items that the fill pass `loop` stores for the status list
`l` in the vectors sized by `count`; `none` when the pass faults. -/
def items_stored (loop : List git_status_entry → FillState → Option FillState)
    (count : List git_status_entry → Nat) (l : List git_status_entry) : Option Nat :=
  (loop l (FillState.alloc (count l))).map (fun st => st.j)

/-! ## Sample inputs -/

/-- A repository on which every libgit2 call succeeds: its status list is `l`,
its index has `entrycount` entries, an id parses when it has 40 characters. -/
def sample_repository (l : List git_status_entry) (entrycount : Nat) : git_repository :=
  { git_signature_new := fun name email time offset => .ok ⟨name, email, time, offset⟩
    git_status_list_new := fun _ _ => .ok l
    git_repository_index := .ok ⟨entrycount⟩
    git_index_write_tree := fun _ => .ok "4b825dc642cb6eb9a060e54bf8d69288fbee4904"
    git_tree_lookup := fun _ oid => .ok ⟨oid⟩
    calloc := fun _ => true
    git_oid_fromstr := fun p => if p.length = 40 then .ok p else .error (-1)
    git_commit_lookup := fun _ oid => .ok ⟨oid, none, none, none, none⟩
    git_commit_create := fun _ _ _ _ _ _ _ => .ok "9fceb02d0ae598e95dc970b74767f19372d61af8" }

/-- A file added to the index and then edited in the working tree. -/
def sample_entry_added_edited : git_status_entry :=
  { status := GIT_STATUS_INDEX_NEW ||| GIT_STATUS_WT_MODIFIED
    head_to_index := some ⟨⟨some "a.txt"⟩, ⟨some "a.txt"⟩⟩
    index_to_workdir := some ⟨⟨some "a.txt"⟩, ⟨some "a.txt"⟩⟩ }

/-- A file renamed in the index and edited in the same step. -/
def sample_entry_renamed_edited : git_status_entry :=
  { status := GIT_STATUS_INDEX_RENAMED ||| GIT_STATUS_INDEX_MODIFIED
    head_to_index := some ⟨⟨some "old.txt"⟩, ⟨some "new.txt"⟩⟩
    index_to_workdir := none }

/-- A file removed from the index. -/
def sample_entry_deleted : git_status_entry :=
  { status := GIT_STATUS_INDEX_DELETED
    head_to_index := some ⟨⟨some "gone.txt"⟩, ⟨some "gone.txt"⟩⟩
    index_to_workdir := none }

/-- A file that is in the working tree only. -/
def sample_entry_untracked : git_status_entry :=
  { status := GIT_STATUS_WT_NEW
    head_to_index := none
    index_to_workdir := some ⟨⟨some "u.txt"⟩, ⟨some "u.txt"⟩⟩ }

/-- A file matched by an ignore rule. -/
def sample_entry_ignored : git_status_entry :=
  { status := GIT_STATUS_IGNORED
    head_to_index := none
    index_to_workdir := some ⟨⟨some "i.log"⟩, ⟨some "i.log"⟩⟩ }

/-- A signature for the sample calls of `commit`. -/
def sample_signature : git_signature :=
  { name := "Alice", email := "alice@example.org", time := 1395567947, offset := 60 }

/-- A status list with one entry of each kind. -/
def sample_status_list : List git_status_entry :=
  [sample_entry_added_edited, sample_entry_renamed_edited, sample_entry_deleted,
   sample_entry_untracked, sample_entry_ignored]

/-- A parent id that parses on the sample repository. -/
def sample_parent_a : String := "1111111111111111111111111111111111111111"

/-- A second parent id that parses on the sample repository. -/
def sample_parent_b : String := "2222222222222222222222222222222222222222"

/-- The sample repository, except that a commit cannot be read back once
`git_commit_create` has stored it and moved the reference (three effects made). -/
def sample_repository_unreadable (l : List git_status_entry) (entrycount : Nat) :
    git_repository :=
  { sample_repository l entrycount with
    git_commit_lookup := fun log oid =>
      if log.length = 3 then .error (-3) else .ok ⟨oid, none, none, none, none⟩ }

/-! ## revisions (git2r.c 1307-1315, 1466-1543) -/

/-- Return code `GIT_ITEROVER` of libgit2 (git2/errors.h). -/
def GIT_ITEROVER : Int := -31

/-- What an iterator of libgit2 yields: the values of the calls that return 0,
in order, and then `stop`, the nonzero return code of the call that ends the
iteration (`GIT_ITEROVER` at the regular end, another negative code on error). -/
structure Walk (α : Type) where
  items : List α
  stop : Int

/-- A call of `revisions` on its revision walker, or a store into its result
list. -/
inductive RevEvent where
  | revwalk_new
  | push_head
  | next
  | reset
  | free
  | set_vector_elt (i : Nat)
  deriving DecidableEq

/-- The repository as `revisions` sees it: the behaviour of the libgit2 calls.
The walk started by the first `git_revwalk_push_head` of the call is
`git_revwalk_push_head 0`, the walk started by the second one, after
`git_revwalk_reset`, is `git_revwalk_push_head 1`. -/
structure revwalk_repository where
  git_repository_is_empty : Int
  git_revwalk_new : Except Int Unit
  git_revwalk_push_head : (pushes : Nat) → Except Int (Walk git_oid)
  git_commit_lookup : git_oid → Except Int git_commit

/-- Loop of `number_of_revisions`: `n` counts the calls of `git_revwalk_next`
that return 0; the call that returns nonzero ends the loop, whatever its code. -/
def number_of_revisions_loop : List git_oid → Nat → List RevEvent → Nat × List RevEvent
  | [], n, tr => (n, tr ++ [.next])
  | _ :: rest, n, tr => number_of_revisions_loop rest (n + 1) (tr ++ [.next])

/-- Function `number_of_revisions` on a walker that will yield `walk`. -/
def number_of_revisions (walk : Walk git_oid) (tr : List RevEvent) : Nat × List RevEvent :=
  number_of_revisions_loop walk.items 0 tr

/-- The loop `for (;;)` of `revisions` on a walker that will yield `items` and
then return `stop`. -/
def revisions_loop (repository : revwalk_repository) :
    List git_oid → (stop : Int) → (list : List (Option sexp_commit)) → (i : Nat) →
    List RevEvent → Except Failure (List (Option sexp_commit)) × List RevEvent
  | [], stop, list, _, tr =>
    if stop < 0 then
      if stop = GIT_ITEROVER then (.ok list, tr ++ [.next])
      else (.error (.git stop), tr ++ [.next])
    else (.error .fault, tr ++ [.next])
  | oid :: rest, stop, list, i, tr =>
    match repository.git_commit_lookup oid with
    | .error err => (.error (.git err), tr ++ [.next])
    | .ok commit =>
      match SET_VECTOR_ELT list i (init_commit commit) with
      | none => (.error .fault, tr ++ [.next, .set_vector_elt i])
      | some list =>
        revisions_loop repository rest stop list (i + 1) (tr ++ [.next, .set_vector_elt i])

/-- Function `revisions`, on an opened repository: what the call returns or
raises, with its calls on the walker and its stores, in order. A fault inside
the loop leaves the function at once: the label `cleanup` is not reached and
the walker is not freed. -/
def revisions (repository : revwalk_repository) :
    Except Failure (List (Option sexp_commit)) × List RevEvent :=
  if repository.git_repository_is_empty ≠ 0 then (.ok [], [])
  else
    match repository.git_revwalk_new with
    | .error err => (.error (.git err), [.revwalk_new])
    | .ok () =>
      match repository.git_revwalk_push_head 0 with
      | .error err => (.error (.git err), [.revwalk_new, .push_head, .free])
      | .ok walk =>
        let counted := number_of_revisions walk [.revwalk_new, .push_head]
        let n := counted.1
        let list : List (Option sexp_commit) := List.replicate n none
        match repository.git_revwalk_push_head 1 with
        | .error err => (.error (.git err), counted.2 ++ [.reset, .push_head, .free])
        | .ok walk =>
          match revisions_loop repository walk.items walk.stop list 0
              (counted.2 ++ [.reset, .push_head]) with
          | (.error .fault, tr) => (.error .fault, tr)
          | (r, tr) => (r, tr ++ [.free])

/-- The indices of the stores `SET_VECTOR_ELT(list, i, _)` in a trace, in order. -/
def stores : List RevEvent → List Nat
  | [] => []
  | .set_vector_elt i :: rest => i :: stores rest
  | _ :: rest => stores rest

/-! ## tags (git2r.c 944-973, 1651-1720) -/

/-- The part of a `git_reference` the code reads. The values of
`git_reference_type` are `GIT_REF_OID = 1` and `GIT_REF_SYMBOLIC = 2`;
`git_reference_target` is `NULL` for a symbolic reference and
`git_reference_symbolic_target` is `NULL` for a direct one. -/
structure git_reference where
  name : String
  shorthand : String
  type : Int
  target : Option git_oid
  symbolic_target : Option String
  deriving DecidableEq

/-- The part of a `git_tag` the code reads; `git_tag_message` and
`git_tag_tagger` may return `NULL`. -/
structure git_tag where
  message : Option String
  name : String
  tagger : Option git_signature
  target_id : git_oid
  deriving DecidableEq

/-- The S4 object `git_tag` filled by `init_tag`. -/
structure sexp_tag where
  message : String
  name : String
  tagger : Option git_signature
  target : String
  deriving DecidableEq

/-- Function `init_tag`; `mkChar(git_tag_message(source))` faults on `NULL`. -/
def init_tag (source : git_tag) : Option sexp_tag := do
  let message ← mkChar source.message
  let name ← mkChar (some source.name)
  some { message := message, name := name, tagger := source.tagger,
         target := source.target_id }

/-- The repository as `tags` sees it: the behaviour of the libgit2 calls. -/
structure tags_repository where
  git_tag_list : Except Int (List String)
  git_reference_dwim : String → Except Int git_reference
  git_tag_lookup : git_oid → Except Int git_tag

/-- The loop `for(i = 0; i < tag_names.count; i++)` of `tags` over the
remaining names `tag_names.strings[i ..]`. -/
def tags_loop (repository : tags_repository) :
    List String → (list : List (Option sexp_tag)) → (i : Nat) →
    Except Failure (List (Option sexp_tag))
  | [], list, _ => .ok list
  | name :: rest, list, i =>
    match repository.git_reference_dwim name with
    | .error err => .error (.git err)
    | .ok reference =>
      match reference.target with
      | none => .error .fault
      | some oid =>
        match repository.git_tag_lookup oid with
        | .error err => .error (.git err)
        | .ok tag =>
          match init_tag tag with
          | none => .error .fault
          | some sexp =>
            match SET_VECTOR_ELT list i sexp with
            | none => .error .fault
            | some list => tags_loop repository rest list (i + 1)

/-- Function `tags`, on an opened repository. -/
def tags (repository : tags_repository) : Except Failure (List (Option sexp_tag)) :=
  match repository.git_tag_list with
  | .error err => .error (.git err)
  | .ok tag_names =>
    tags_loop repository tag_names (List.replicate tag_names.length none) 0

/-! ## config (git2r.c 564-602) -/

/-- The repository as `config` sees it: the behaviour of the libgit2 calls. -/
structure config_repository where
  git_repository_config : Except Int Unit
  git_config_set_string : (key value : String) → Except Int Unit

/-- The loop of `config` over the remaining variables: the value of `err` when
the loop is left and the variables set so far, in order. -/
def config_loop (repository : config_repository) :
    List (String × String) → List (String × String) → Int × List (String × String)
  | [], done => (0, done)
  | (key, value) :: rest, done =>
    match repository.git_config_set_string key value with
    | .error err => (err, done)
    | .ok () => config_loop repository rest (done ++ [(key, value)])

/-- The body of `config` up to the label `cleanup`: the value of `err` and the
variables set. -/
def config_body (repository : config_repository) (variable_list : List (String × String)) :
    Int × List (String × String) :=
  match repository.git_repository_config with
  | .error err => (err, [])
  | .ok () => config_loop repository variable_list []

/-- Function `config`, on an opened repository, with `variable_list` the names
and the first strings of the elements of `variables`. After `cleanup` it frees the handles
and returns `R_NilValue`; it does not look at `err`. -/
def config (repository : config_repository) (variable_list : List (String × String)) :
    Except Failure Unit × List (String × String) :=
  (.ok (), (config_body repository variable_list).2)

/-- A tag name resolves to an annotated tag: `git_reference_dwim` finds a
direct reference and `git_tag_lookup` on its target yields `tag`, a tag object
with a message. -/
def resolves_to_tag (repository : tags_repository) (name : String) (tag : git_tag) : Prop :=
  ∃ reference oid, repository.git_reference_dwim name = .ok reference
    ∧ reference.target = some oid ∧ repository.git_tag_lookup oid = .ok tag
    ∧ tag.message ≠ none

/-- A tag name resolves to an object that is not an annotated tag:
`git_reference_dwim` finds a direct reference and `git_tag_lookup` on its
target fails. -/
def resolves_to_other (repository : tags_repository) (name : String) : Prop :=
  ∃ reference oid err, repository.git_reference_dwim name = .ok reference
    ∧ reference.target = some oid ∧ repository.git_tag_lookup oid = .error err

/-- A commit with every field that `init_commit` reads. -/
def sample_commit (id : git_oid) : git_commit :=
  { id := id, author := some sample_signature, committer := some sample_signature,
    summary := some "edit", message := some "edit\n" }

/-- A non-empty repository on which the two walks of `revisions` yield `first`
and `second` and on which every commit is found. -/
def sample_revwalk_repository (first second : Walk git_oid) : revwalk_repository :=
  { git_repository_is_empty := 0
    git_revwalk_new := .ok ()
    git_revwalk_push_head := fun pushes => if pushes = 0 then .ok first else .ok second
    git_commit_lookup := fun oid => .ok (sample_commit oid) }

/-- An empty repository. -/
def sample_empty_repository : revwalk_repository :=
  { git_repository_is_empty := 1
    git_revwalk_new := .ok ()
    git_revwalk_push_head := fun _ => .ok ⟨[], GIT_ITEROVER⟩
    git_commit_lookup := fun _ => .error (-3) }

/-- The annotated tag of the sample tag repository. -/
def sample_tag : git_tag :=
  { message := some "release 1", name := "v1", tagger := some sample_signature,
    target_id := sample_parent_a }

/-- A repository with the tag names `names`, where `v1` is an annotated tag
and every other name is a lightweight tag that points at a commit. -/
def sample_tags_repository (names : List String) : tags_repository :=
  { git_tag_list := .ok names
    git_reference_dwim := fun name =>
      .ok { name := "refs/tags/" ++ name, shorthand := name, type := 1,
            target := some (if name = "v1" then sample_parent_b else sample_parent_a),
            symbolic_target := none }
    git_tag_lookup := fun oid => if oid = sample_parent_b then .ok sample_tag else .error (-3) }

/-- A repository whose configuration cannot be opened. -/
def sample_config_repository_closed : config_repository :=
  { git_repository_config := .error (-1)
    git_config_set_string := fun _ _ => .ok () }

/-- A repository whose configuration accepts `user.name` and refuses every
other key. -/
def sample_config_repository_locked : config_repository :=
  { git_repository_config := .ok ()
    git_config_set_string := fun key _ => if key = "user.name" then .ok () else .error (-1) }

/-! ## branches (git2r.c 107-233, 877-905, 1273-1299) -/

/-- Value `GIT_BRANCH_LOCAL` of `git_branch_t` (git2/types.h). -/
def GIT_BRANCH_LOCAL : Int := 1
/-- Value `GIT_BRANCH_REMOTE` of `git_branch_t` (git2/types.h). -/
def GIT_BRANCH_REMOTE : Int := 2
/-- Value `GIT_REF_OID` of `git_ref_t` (git2/types.h). -/
def GIT_REF_OID : Int := 1
/-- Value `GIT_REF_SYMBOLIC` of `git_ref_t` (git2/types.h). -/
def GIT_REF_SYMBOLIC : Int := 2

/-- Message `err_unexpected_type_of_branch`. -/
def err_unexpected_type_of_branch : String := "Unexpected type of branch"
/-- Message `err_unexpected_head_of_branch`. -/
def err_unexpected_head_of_branch : String := "Unexpected head of branch"

/-- The part of a `git_remote` the code reads: `git_remote_url`. -/
structure git_remote where
  name : Option String
  url : Option String
  deriving DecidableEq

/-- The S4 object `git_branch`; a slot that is not set is `none`. -/
structure sexp_branch where
  name : String
  shorthand : String
  type : Option Int
  hex : Option String
  target : Option String
  remote : Option String
  url : Option String
  head : Option Bool
  deriving DecidableEq

/-- A handle that `branches` and `number_of_branches` acquire. -/
inductive Handle where
  /-- The iterator of `git_branch_iterator_new`. -/
  | iterator
  /-- The reference handed out by `git_branch_next`. -/
  | reference
  /-- The buffer of `malloc` for the remote name. -/
  | buffer
  /-- The remote of `git_remote_load` or `git_remote_create_inmemory`. -/
  | remote
  deriving DecidableEq

/-- An acquisition or a release (`git_*_free`, `free`) of a handle. -/
inductive ResourceEvent where
  | acquire (h : Handle)
  | release (h : Handle)
  deriving DecidableEq

/-- How the body of the loop of `branches` is left when it does not store a
branch: by `goto cleanup` with `err < 0`, or at once, by `error(...)` inside
`init_reference` or by a memory fault. -/
inductive Exit where
  | cleanup (f : Failure)
  | raised (f : Failure)
  deriving DecidableEq

/-- The repository as `branches` sees it: the behaviour of the libgit2 calls
and of `malloc`. The iterator made by the `created`-th call of
`git_branch_iterator_new` (0 in `number_of_branches`, 1 in `branches`) yields
each reference with its `git_branch_t`. Call `git_branch_remote_name` yields
the remote name, whose length plus one is the return value of the call, or an
error code. -/
structure branches_repository where
  git_branch_iterator_new : (created : Nat) → (flags : Int) →
    Except Int (Walk (git_reference × Int))
  git_branch_remote_name : (refname : String) → Except Int String
  malloc : (size : Nat) → Bool
  git_remote_load : (name : String) → Except Int git_remote
  git_remote_create_inmemory_result : (fetch url : Option String) → Except Int Unit
  git_branch_is_head : git_reference → Int

/-- Call `git_remote_create_inmemory(&remote, repository, fetch, url)` of libgit2
(git2/remote.h): the third argument is the fetch refspec and the fourth is the
URL of the remote, which has no name. -/
def git_remote_create_inmemory (repository : branches_repository)
    (fetch url : Option String) : Except Int git_remote :=
  match repository.git_remote_create_inmemory_result fetch url with
  | .error err => .error err
  | .ok () => .ok { name := none, url := url }

/-- Function `init_reference` on a new `git_branch` object. -/
def init_reference (ref : git_reference) : Except Exit sexp_branch :=
  let reference : sexp_branch :=
    { name := ref.name, shorthand := ref.shorthand, type := none, hex := none,
      target := none, remote := none, url := none, head := none }
  if ref.type = GIT_REF_OID then
    match ref.target with
    | none => .error (.raised .fault)
    | some oid => .ok { reference with type := some GIT_REF_OID, hex := some oid }
  else if ref.type = GIT_REF_SYMBOLIC then
    match mkChar ref.symbolic_target with
    | none => .error (.raised .fault)
    | some t => .ok { reference with type := some GIT_REF_SYMBOLIC, target := some t }
  else .error (.raised (.message "Unexpected reference type"))

/-- Loop of `number_of_branches`: `n` counts the references handed out, each of
which is freed at once. -/
def number_of_branches_loop :
    List (git_reference × Int) → Nat → List ResourceEvent → Nat × List ResourceEvent
  | [], n, tr => (n, tr)
  | _ :: rest, n, tr =>
    number_of_branches_loop rest (n + 1)
      (tr ++ [.acquire .reference, .release .reference])

/-- Function `number_of_branches`: the error code or the count `*n`. -/
def number_of_branches (repository : branches_repository) (flags : Int) :
    Except Int Nat × List ResourceEvent :=
  match repository.git_branch_iterator_new 0 flags with
  | .error err => (.error err, [])
  | .ok walk =>
    let counted := number_of_branches_loop walk.items 0 [.acquire .iterator]
    if GIT_ITEROVER ≠ walk.stop then (.error walk.stop, counted.2 ++ [.release .iterator])
    else (.ok counted.1, counted.2 ++ [.release .iterator])

/-- The case `GIT_BRANCH_REMOTE` of the switch on `type` in `branches`. -/
def branches_remote (repository : branches_repository) (refname : String)
    (branch : sexp_branch) (tr : List ResourceEvent) :
    Except Exit sexp_branch × List ResourceEvent :=
  let buf_size : Nat :=
    match repository.git_branch_remote_name refname with
    | .ok name => name.utf8ByteSize + 1
    | .error err => (err % 2 ^ 64).toNat
  if ¬ repository.malloc buf_size then
    (.error (.cleanup (.message err_alloc_memory_buffer)), tr)
  else
    let tr := tr ++ [.acquire .buffer]
    match repository.git_branch_remote_name refname with
    | .error _ => (.error (.raised .fault), tr)
    | .ok buf =>
      let branch := { branch with remote := some buf }
      let loaded : Except Int git_remote :=
        match repository.git_remote_load buf with
        | .ok remote => .ok remote
        | .error _ => git_remote_create_inmemory repository none (some buf)
      match loaded with
      | .error err => (.error (.cleanup (.git err)), tr)
      | .ok remote =>
        let tr := tr ++ [.acquire .remote]
        match mkChar remote.url with
        | none => (.error (.raised .fault), tr)
        | some url =>
          (.ok { branch with url := some url }, tr ++ [.release .buffer, .release .remote])

/-- The body of the loop of `branches` for the reference `ref` of type `type`
handed out by `git_branch_next`, up to the switch on `git_branch_is_head`. -/
def branches_item (repository : branches_repository) (ref : git_reference) (type : Int)
    (tr : List ResourceEvent) : Except Exit sexp_branch × List ResourceEvent :=
  let tr := tr ++ [.acquire .reference]
  match init_reference ref with
  | .error e => (.error e, tr)
  | .ok branch =>
    let typed : Except Exit sexp_branch × List ResourceEvent :=
      if type = GIT_BRANCH_LOCAL then (.ok branch, tr)
      else if type = GIT_BRANCH_REMOTE then branches_remote repository ref.name branch tr
      else (.error (.cleanup (.message err_unexpected_type_of_branch)), tr)
    match typed with
    | (.error e, tr) => (.error e, tr)
    | (.ok branch, tr) =>
      if repository.git_branch_is_head ref = 0 then
        (.ok { branch with head := some false }, tr)
      else if repository.git_branch_is_head ref = 1 then
        (.ok { branch with head := some true }, tr)
      else (.error (.cleanup (.message err_unexpected_head_of_branch)), tr)

/-- The loop `for (;;)` of `branches` on an iterator that will yield `items`
and then return `stop`. -/
def branches_loop (repository : branches_repository) :
    List (git_reference × Int) → (stop : Int) → (list : List (Option sexp_branch)) →
    (i : Nat) → List ResourceEvent →
    Except Exit (List (Option sexp_branch)) × List ResourceEvent
  | [], stop, list, _, tr =>
    if stop < 0 then
      if GIT_ITEROVER = stop then (.ok list, tr)
      else (.error (.cleanup (.git stop)), tr)
    else (.error (.raised .fault), tr)
  | (ref, type) :: rest, stop, list, i, tr =>
    match branches_item repository ref type tr with
    | (.error e, tr) => (.error e, tr)
    | (.ok branch, tr) =>
      let tr := tr ++ [.release .reference]
      match SET_VECTOR_ELT list i branch with
      | none => (.error (.raised .fault), tr)
      | some list => branches_loop repository rest stop list (i + 1) tr

/-- Function `branches`, on an opened repository: what the call returns or
raises, with the acquisitions and releases of handles, in order. -/
def branches (repository : branches_repository) (flags : Int) :
    Except Failure (List (Option sexp_branch)) × List ResourceEvent :=
  match number_of_branches repository flags with
  | (.error err, tr) => (.error (.git err), tr)
  | (.ok n, tr) =>
    let list : List (Option sexp_branch) := List.replicate n none
    match repository.git_branch_iterator_new 1 flags with
    | .error err => (.error (.git err), tr)
    | .ok walk =>
      match branches_loop repository walk.items walk.stop list 0
          (tr ++ [.acquire .iterator]) with
      | (.ok list, tr) => (.ok list, tr ++ [.release .iterator])
      | (.error (.cleanup f), tr) => (.error f, tr ++ [.release .iterator])
      | (.error (.raised f), tr) => (.error f, tr)

/-- The number of acquisitions of the handle `h` in a trace. -/
def acquisitions (h : Handle) (tr : List ResourceEvent) : Nat :=
  tr.count (.acquire h)

/-- The number of releases of the handle `h` in a trace. -/
def releases (h : Handle) (tr : List ResourceEvent) : Nat :=
  tr.count (.release h)

/-- The body of the loop of `branches` stores a branch for the reference and
type `x`, whatever has been acquired and released before. -/
def item_stored (repository : branches_repository) (x : git_reference × Int) : Prop :=
  ∃ branch, ∀ tr, ∃ tr', branches_item repository x.1 x.2 tr = (.ok branch, tr')

/-- A direct reference with the given name and shorthand. -/
def sample_reference (name shorthand : String) : git_reference :=
  { name := name, shorthand := shorthand, type := GIT_REF_OID,
    target := some sample_parent_a, symbolic_target := none }

/-- The local branch `master`. -/
def sample_local_branch : git_reference × Int :=
  (sample_reference "refs/heads/master" "master", GIT_BRANCH_LOCAL)

/-- The remote branch `origin/master`. -/
def sample_remote_branch : git_reference × Int :=
  (sample_reference "refs/remotes/origin/master" "origin/master", GIT_BRANCH_REMOTE)

/-- A repository whose two branch iterations yield `items`, whose remote
branches belong to the remote `origin`, which has no persisted configuration,
where `git_remote_create_inmemory` returns `created` and `git_branch_is_head`
returns `is_head`. -/
def sample_branches_repository (items : List (git_reference × Int))
    (created : Except Int Unit) (is_head : Int) : branches_repository :=
  { git_branch_iterator_new := fun _ _ => .ok ⟨items, GIT_ITEROVER⟩
    git_branch_remote_name := fun _ => .ok "origin"
    malloc := fun _ => true
    git_remote_load := fun _ => .error (-3)
    git_remote_create_inmemory_result := fun _ _ => created
    git_branch_is_head := fun _ => is_head }

/-! ## clone_progress (git2r.c 258-297) -/

/-- The part of a `git_transfer_progress` the code reads: `total_objects` and
`received_objects` are `unsigned int`, `received_bytes` is a `size_t`. -/
structure git_transfer_progress where
  total_objects : Nat
  received_objects : Nat
  received_bytes : Nat
  deriving DecidableEq

/-- The payload `progress_data` of the callback. -/
structure progress_data where
  received_progress : Int
  received_done : Int
  deriving DecidableEq

/-- A line written by `Rprintf` in `clone_progress`: the line of a percentage,
or the line that ends in `done.`. -/
inductive ProgressLine where
  | receiving (received_percent : Int) (received_objects total_objects : Nat) (kbytes : Int)
  | done (received_objects total_objects : Nat) (kbytes : Int)
  deriving DecidableEq

/-- Conversion of an unsigned value to `int`: 32 bits, two's complement. -/
def to_int (n : Nat) : Int :=
  if n % 2 ^ 32 < 2 ^ 31 then ((n % 2 ^ 32 : Nat) : Int)
  else ((n % 2 ^ 32 : Nat) : Int) - 2 ^ 32

/-- Division of `unsigned int`; a division by zero is a fault. -/
def udiv (a b : Nat) : Option Nat :=
  if b = 0 then none else some (a / b)

/-- Function `clone_progress`: the return value, the payload after the call
and the lines printed; `none` is a division by zero. The product
`100 * progress->received_objects` is an `unsigned int`. -/
def clone_progress (progress : git_transfer_progress) (pd : progress_data) :
    Option (Int × progress_data × List ProgressLine) :=
  let kbytes := to_int (progress.received_bytes / 1024)
  if progress.received_objects < progress.total_objects then do
    let q ← udiv ((100 * progress.received_objects) % 2 ^ 32) progress.total_objects
    let received_percent := to_int q
    if received_percent > pd.received_progress then
      some (0, { pd with received_progress := pd.received_progress + 10 },
        [.receiving received_percent progress.received_objects progress.total_objects
          kbytes])
    else some (0, pd, [])
  else if pd.received_done = 0 then
    some (0, { pd with received_done := 1 },
      [.done progress.received_objects progress.total_objects kbytes])
  else some (0, pd, [])

/-- The calls of `clone_progress` made during one transfer, with the same
payload: the payload after the last call and all the lines printed. -/
def clone_progress_calls :
    List git_transfer_progress → progress_data → Option (progress_data × List ProgressLine)
  | [], pd => some (pd, [])
  | progress :: rest, pd => do
    let r ← clone_progress progress pd
    let s ← clone_progress_calls rest r.2.1
    some (s.1, r.2.2 ++ s.2)

/-- Whether a printed line is the completion line. -/
def ProgressLine.is_done : ProgressLine → Bool
  | .done _ _ _ => true
  | .receiving _ _ _ _ => false

/-! ## The registration table (git2r.c 1745-1766) -/

/-- The entries of `callMethods` before the terminating `{NULL, NULL, 0}`:
the name of the routine and its registered number of arguments. -/
def callMethods : List (String × Nat) :=
  [("add", 2), ("branches", 2), ("checkout", 2), ("clone", 2), ("commit", 5),
   ("config", 2), ("default_signature", 1), ("init", 2), ("is_bare", 1), ("is_empty", 1),
   ("is_repository", 1), ("references", 1), ("remotes", 1), ("remote_url", 2),
   ("revisions", 1), ("status", 5), ("tags", 1), ("workdir", 1)]

/-- The functions of git2r.c that `callMethods` names, with the parameters of
their definitions. -/
def entry_points : List (String × List String) :=
  [("add", ["repo", "path"]), ("branches", ["repo", "flags"]),
   ("checkout", ["repo", "treeish"]), ("clone", ["url", "local_path", "progress"]),
   ("commit", ["repo", "message", "author", "committer", "parent_list"]),
   ("config", ["repo", "variables"]), ("default_signature", ["repo"]),
   ("init", ["path", "bare"]), ("is_bare", ["repo"]), ("is_empty", ["repo"]),
   ("is_repository", ["path"]), ("references", ["repo"]), ("remotes", ["repo"]),
   ("remote_url", ["repo", "remote"]), ("revisions", ["repo"]),
   ("status", ["repo", "staged", "unstaged", "untracked", "ignored"]),
   ("tags", ["repo"]), ("workdir", ["repo"])]

/-- The number of parameters of the function that `callMethods` registers
under `name`. -/
def parameter_count (name : String) : Option Nat :=
  (entry_points.lookup name).map List.length

/-- The entries of `callMethods` whose registered number of arguments is not
the number of parameters of the function, with that number. -/
def registered_mismatches : List (String × Nat × Option Nat) :=
  callMethods.filterMap (fun e =>
    if parameter_count e.1 = some e.2 then none else some (e.1, e.2, parameter_count e.1))

/-- A file removed from the index and created again in the working tree. -/
def sample_entry_deleted_recreated : git_status_entry :=
  { status := GIT_STATUS_INDEX_DELETED ||| GIT_STATUS_WT_NEW
    head_to_index := some ⟨⟨some "back.txt"⟩, ⟨some "back.txt"⟩⟩
    index_to_workdir := some ⟨⟨some "back.txt"⟩, ⟨some "back.txt"⟩⟩ }

/-- An annotated tag whose object has no message: `git_tag_message` returns
`NULL` for it. -/
def sample_tag_without_message : git_tag :=
  { message := none, name := "v2", tagger := some sample_signature,
    target_id := sample_parent_a }

/-- A repository with the one tag name `v2`, an annotated tag without a
message. -/
def sample_tags_repository_without_message : tags_repository :=
  { git_tag_list := .ok ["v2"]
    git_reference_dwim := fun name =>
      .ok { name := "refs/tags/" ++ name, shorthand := name, type := 1,
            target := some sample_parent_b, symbolic_target := none }
    git_tag_lookup := fun oid =>
      if oid = sample_parent_b then .ok sample_tag_without_message else .error (-3) }

/-! ## Lemmas on the fill loops -/

theorem FillState.store_append (a : List (Option (List String))) (b : List (Option String))
    (k : Nat) (name : String) (it : List String) (hb : b.length = a.length) :
    FillState.store
        { sub_list := a ++ List.replicate (k + 1) none
          sub_list_names := b ++ List.replicate (k + 1) none
          j := a.length
          writes := List.range a.length } name it
      = some { sub_list := (a ++ [some it]) ++ List.replicate k none
               sub_list_names := (b ++ [some name]) ++ List.replicate k none
               j := (a ++ [some it]).length
               writes := List.range (a ++ [some it]).length } := by
  simp [FillState.store, SET_STRING_ELT, SET_VECTOR_ELT, List.replicate_succ,
    List.range_succ, ← hb]

theorem listed_cons_none (label : git_status_entry → Option String) (s : git_status_entry)
    (rest : List git_status_entry) (h : label s = none) :
    listed label (s :: rest) = listed label rest := by
  simp [listed, List.filter_cons, h]

theorem listed_cons_some (label : git_status_entry → Option String) (s : git_status_entry)
    (rest : List git_status_entry) (name : String) (h : label s = some name) :
    listed label (s :: rest) = s :: listed label rest := by
  simp [listed, List.filter_cons, h]

theorem listed_append (label : git_status_entry → Option String)
    (l₁ l₂ : List git_status_entry) :
    listed label (l₁ ++ l₂) = listed label l₁ ++ listed label l₂ := by
  simp [listed]

theorem listed_sublist (label : git_status_entry → Option String) (l : List git_status_entry) :
    List.Sublist (listed label l) l :=
  List.filter_sublist l

theorem fill_loop_general (label : git_status_entry → Option String)
    (item : git_status_entry → Option (List String)) :
    ∀ (l : List git_status_entry) (a : List (Option (List String)))
      (b : List (Option String)) (k : Nat),
      b.length = a.length →
      (∀ s ∈ l, (label s).isSome = true → (item s).isSome = true) →
      (listed label l).length ≤ k →
      fill_loop label item l
          { sub_list := a ++ List.replicate k none
            sub_list_names := b ++ List.replicate k none
            j := a.length
            writes := List.range a.length }
        = some
          { sub_list := a ++ (listed label l).map item
                ++ List.replicate (k - (listed label l).length) none
            sub_list_names := b ++ (listed label l).map label
                ++ List.replicate (k - (listed label l).length) none
            j := a.length + (listed label l).length
            writes := List.range (a.length + (listed label l).length) } := by
  intro l
  induction l with
  | nil => intro a b k _ _ _; simp [fill_loop, listed]
  | cons s rest ih =>
    intro a b k hb hok hk
    have hrest : ∀ x ∈ rest, (label x).isSome = true → (item x).isSome = true :=
      fun x hx => hok x (List.mem_cons_of_mem _ hx)
    have hs := hok s (List.mem_cons_self _ _)
    cases hl : label s with
    | none =>
      rw [listed_cons_none label s rest hl] at hk ⊢
      simp only [fill_loop, hl]
      exact ih a b k hb hrest hk
    | some name =>
      rw [listed_cons_some label s rest name hl] at hk ⊢
      rw [hl] at hs
      obtain ⟨it, hit⟩ := Option.isSome_iff_exists.mp (hs rfl)
      simp only [List.length_cons] at hk
      obtain ⟨k', rfl⟩ : ∃ k', k = k' + 1 := ⟨k - 1, by omega⟩
      simp only [fill_loop, hl, hit]
      rw [FillState.store_append a b k' name it hb]
      simp only [Option.some_bind]
      rw [ih (a ++ [some it]) (b ++ [some name]) k' (by simp [hb]) hrest (by omega)]
      simp [List.append_assoc, hl, hit, Nat.add_assoc, Nat.add_comm 1]

theorem fill_loop_alloc (label : git_status_entry → Option String)
    (item : git_status_entry → Option (List String)) (l : List git_status_entry)
    (hok : ∀ s ∈ l, (label s).isSome = true → (item s).isSome = true) :
    fill_loop label item l (FillState.alloc (listed label l).length)
      = some (FillState.final label item l) := by
  have h := fill_loop_general label item l [] [] (listed label l).length rfl hok
    (Nat.le_refl _)
  simpa [FillState.final, FillState.alloc] using h

theorem fill_loop_append (label : git_status_entry → Option String)
    (item : git_status_entry → Option (List String)) :
    ∀ (l₁ l₂ : List git_status_entry) (st : FillState),
      fill_loop label item (l₁ ++ l₂) st
        = (fill_loop label item l₁ st).bind (fill_loop label item l₂) := by
  intro l₁
  induction l₁ with
  | nil => intro l₂ st; simp [fill_loop]
  | cons s rest ih =>
    intro l₂ st
    cases hl : label s with
    | none => simp [fill_loop, hl, ih]
    | some name =>
      cases hit : item s with
      | none => simp [fill_loop, hl, hit]
      | some it =>
        simp only [List.cons_append, fill_loop, hl, hit]
        cases st.store name it with
        | none => simp
        | some st' => simp [ih]

theorem list_staged_changes_loop_eq (l : List git_status_entry) (st : FillState) :
    list_staged_changes_loop l st = fill_loop staged_label staged_item l st := by
  induction l generalizing st with
  | nil => rfl
  | cons s rest ih =>
    simp only [list_staged_changes_loop, fill_loop, staged_label, staged_item]
    split
    · exact ih st
    · cases h1 : istatus s.status with
      | none => exact ih st
      | some name =>
        simp only [FillState.store, Option.bind_eq_bind]
        cases hS : SET_STRING_ELT st.sub_list_names st.j name with
        | none =>
          cases h2 : s.head_to_index with
          | none => simp
          | some d => cases h3 : path_item d.old_file.path d.new_file.path <;> simp [h3]
        | some names =>
          cases h2 : s.head_to_index with
          | none => simp
          | some d =>
            cases h3 : path_item d.old_file.path d.new_file.path with
            | none => simp [h3]
            | some it =>
              cases hV : SET_VECTOR_ELT st.sub_list st.j it with
              | none => simp [h3, hV]
              | some items => simp [h3, hV, ih]

theorem list_unstaged_changes_loop_eq (l : List git_status_entry) (st : FillState) :
    list_unstaged_changes_loop l st = fill_loop unstaged_label unstaged_item l st := by
  induction l generalizing st with
  | nil => rfl
  | cons s rest ih =>
    simp only [list_unstaged_changes_loop, fill_loop, unstaged_label, unstaged_item]
    split
    · exact ih st
    · cases h1 : wstatus s.status with
      | none => exact ih st
      | some name =>
        simp only [FillState.store, Option.bind_eq_bind]
        cases hS : SET_STRING_ELT st.sub_list_names st.j name with
        | none =>
          cases h2 : s.index_to_workdir with
          | none => simp
          | some d => cases h3 : path_item d.old_file.path d.new_file.path <;> simp [h3]
        | some names =>
          cases h2 : s.index_to_workdir with
          | none => simp
          | some d =>
            cases h3 : path_item d.old_file.path d.new_file.path with
            | none => simp [h3]
            | some it =>
              cases hV : SET_VECTOR_ELT st.sub_list st.j it with
              | none => simp [h3, hV]
              | some items => simp [h3, hV, ih]

theorem list_untracked_files_loop_eq (l : List git_status_entry) (st : FillState) :
    list_untracked_files_loop l st = fill_loop untracked_label workdir_item l st := by
  induction l generalizing st with
  | nil => rfl
  | cons s rest ih =>
    simp only [list_untracked_files_loop, fill_loop, untracked_label, workdir_item]
    split
    · simp only [FillState.store, Option.bind_eq_bind, mkChar]
      cases hS : SET_STRING_ELT st.sub_list_names st.j "untracked" with
      | none =>
        cases h2 : s.index_to_workdir with
        | none => simp
        | some d => cases h3 : d.old_file.path <;> simp [h3]
      | some names =>
        cases h2 : s.index_to_workdir with
        | none => simp
        | some d =>
          cases h3 : d.old_file.path with
          | none => simp [h3]
          | some p =>
            cases hV : SET_VECTOR_ELT st.sub_list st.j [p] with
            | none => simp [h3, hV]
            | some items => simp [h3, hV, ih]
    · exact ih st

theorem list_ignored_files_loop_eq (l : List git_status_entry) (st : FillState) :
    list_ignored_files_loop l st = fill_loop ignored_label workdir_item l st := by
  induction l generalizing st with
  | nil => rfl
  | cons s rest ih =>
    simp only [list_ignored_files_loop, fill_loop, ignored_label, workdir_item]
    split
    · simp only [FillState.store, Option.bind_eq_bind, mkChar]
      cases hS : SET_STRING_ELT st.sub_list_names st.j "ignored" with
      | none =>
        cases h2 : s.index_to_workdir with
        | none => simp
        | some d => cases h3 : d.old_file.path <;> simp [h3]
      | some names =>
        cases h2 : s.index_to_workdir with
        | none => simp
        | some d =>
          cases h3 : d.old_file.path with
          | none => simp [h3]
          | some p =>
            cases hV : SET_VECTOR_ELT st.sub_list st.j [p] with
            | none => simp [h3, hV]
            | some items => simp [h3, hV, ih]
    · exact ih st

/-! ## Lemmas on the counting passes -/

theorem count_staged_changes_loop_eq (l : List git_status_entry) (n : Nat) :
    count_staged_changes_loop l n = n + (listed staged_label l).length := by
  induction l generalizing n with
  | nil => simp [count_staged_changes_loop, listed]
  | cons s rest ih =>
    cases hl : staged_label s with
    | none =>
      rw [listed_cons_none _ _ _ hl]
      simp only [staged_label, istatus] at hl
      simp only [count_staged_changes_loop]
      split_ifs at hl ⊢ <;> exact ih n
    | some name =>
      rw [listed_cons_some _ _ _ name hl]
      simp only [staged_label, istatus] at hl
      simp only [count_staged_changes_loop, List.length_cons]
      split_ifs at hl ⊢ <;> (rw [ih]; omega)

theorem count_unstaged_changes_loop_eq (l : List git_status_entry) (n : Nat) :
    count_unstaged_changes_loop l n = n + (listed unstaged_label l).length := by
  induction l generalizing n with
  | nil => simp [count_unstaged_changes_loop, listed]
  | cons s rest ih =>
    cases hl : unstaged_label s with
    | none =>
      rw [listed_cons_none _ _ _ hl]
      simp only [unstaged_label, wstatus] at hl
      simp only [count_unstaged_changes_loop]
      split_ifs at hl ⊢ <;> exact ih n
    | some name =>
      rw [listed_cons_some _ _ _ name hl]
      simp only [unstaged_label, wstatus] at hl
      simp only [count_unstaged_changes_loop, List.length_cons]
      split_ifs at hl ⊢ <;> (rw [ih]; omega)

theorem count_untracked_files_loop_eq (l : List git_status_entry) (n : Nat) :
    count_untracked_files_loop l n = n + (listed untracked_label l).length := by
  induction l generalizing n with
  | nil => simp [count_untracked_files_loop, listed]
  | cons s rest ih =>
    cases hl : untracked_label s with
    | none =>
      rw [listed_cons_none _ _ _ hl]
      simp only [untracked_label] at hl
      simp only [count_untracked_files_loop]
      split_ifs at hl ⊢
      exact ih n
    | some name =>
      rw [listed_cons_some _ _ _ name hl]
      simp only [untracked_label] at hl
      simp only [count_untracked_files_loop, List.length_cons]
      split_ifs at hl ⊢
      rw [ih]; omega

theorem count_ignored_files_loop_eq (l : List git_status_entry) (n : Nat) :
    count_ignored_files_loop l n = n + (listed ignored_label l).length := by
  induction l generalizing n with
  | nil => simp [count_ignored_files_loop, listed]
  | cons s rest ih =>
    cases hl : ignored_label s with
    | none =>
      rw [listed_cons_none _ _ _ hl]
      simp only [ignored_label] at hl
      simp only [count_ignored_files_loop]
      split_ifs at hl ⊢
      exact ih n
    | some name =>
      rw [listed_cons_some _ _ _ name hl]
      simp only [ignored_label] at hl
      simp only [count_ignored_files_loop, List.length_cons]
      split_ifs at hl ⊢
      rw [ih]; omega

theorem count_staged_changes_eq (l : List git_status_entry) :
    count_staged_changes l = (listed staged_label l).length := by
  simp [count_staged_changes, count_staged_changes_loop_eq]

theorem count_unstaged_changes_eq (l : List git_status_entry) :
    count_unstaged_changes l = (listed unstaged_label l).length := by
  simp [count_unstaged_changes, count_unstaged_changes_loop_eq]

theorem count_untracked_files_eq (l : List git_status_entry) :
    count_untracked_files l = (listed untracked_label l).length := by
  simp [count_untracked_files, count_untracked_files_loop_eq]

theorem count_ignored_files_eq (l : List git_status_entry) :
    count_ignored_files l = (listed ignored_label l).length := by
  simp [count_ignored_files, count_ignored_files_loop_eq]

/-! ## Well-formed entries do not fault -/

theorem path_item_isSome (o n : Option String) :
    (path_item o n).isSome = (o.isSome || n.isSome) := by
  cases o <;> cases n <;> simp [path_item, mkChar]
  split <;> rfl

theorem staged_item_of_ok (s : git_status_entry) (h : staged_ok s = true)
    (hl : (staged_label s).isSome = true) : (staged_item s).isSome = true := by
  unfold staged_ok at h
  unfold staged_label at hl
  split at hl
  · simp at hl
  · cases h2 : s.head_to_index with
    | none =>
      rw [h2] at h
      simp only [has_path, Bool.or_false] at h
      rw [Option.isNone_iff_eq_none] at h
      rw [h] at hl
      simp at hl
    | some d =>
      obtain ⟨name, hn⟩ := Option.isSome_iff_exists.mp hl
      rw [h2, hn] at h
      simpa [staged_item, h2, path_item_isSome, has_path] using h

theorem unstaged_item_of_ok (s : git_status_entry) (h : unstaged_ok s = true)
    (hl : (unstaged_label s).isSome = true) : (unstaged_item s).isSome = true := by
  unfold unstaged_ok at h
  unfold unstaged_label at hl
  split at hl
  · simp at hl
  · rename_i hc
    cases h2 : s.index_to_workdir with
    | none => simp [h2] at hc
    | some d =>
      obtain ⟨name, hn⟩ := Option.isSome_iff_exists.mp hl
      rw [h2, hn] at h
      simpa [unstaged_item, h2, path_item_isSome, has_path] using h

theorem untracked_item_of_ok (s : git_status_entry) (h : untracked_ok s = true)
    (hl : (untracked_label s).isSome = true) : (workdir_item s).isSome = true := by
  unfold untracked_ok at h
  unfold untracked_label at hl
  split at hl
  · rename_i hs
    cases h2 : s.index_to_workdir with
    | none => simp [hs, h2, has_old_path] at h
    | some d =>
      cases h3 : d.old_file.path with
      | none => simp [hs, h2, h3, has_old_path] at h
      | some p => simp [workdir_item, h2, h3, mkChar]
  · simp at hl

theorem ignored_item_of_ok (s : git_status_entry) (h : ignored_ok s = true)
    (hl : (ignored_label s).isSome = true) : (workdir_item s).isSome = true := by
  unfold ignored_ok at h
  unfold ignored_label at hl
  split at hl
  · rename_i hs
    cases h2 : s.index_to_workdir with
    | none => simp [hs, h2, has_old_path] at h
    | some d =>
      cases h3 : d.old_file.path with
      | none => simp [hs, h2, h3, has_old_path] at h
      | some p => simp [workdir_item, h2, h3, mkChar]
  · simp at hl

/-! ## The four fill passes on well-formed status lists -/

theorem staged_fill (l : List git_status_entry) (h : ∀ s ∈ l, staged_ok s = true) :
    list_staged_changes_loop l (FillState.alloc (count_staged_changes l))
      = some (FillState.final staged_label staged_item l) := by
  rw [list_staged_changes_loop_eq, count_staged_changes_eq]
  exact fill_loop_alloc _ _ l (fun s hs => staged_item_of_ok s (h s hs))

theorem unstaged_fill (l : List git_status_entry) (h : ∀ s ∈ l, unstaged_ok s = true) :
    list_unstaged_changes_loop l (FillState.alloc (count_unstaged_changes l))
      = some (FillState.final unstaged_label unstaged_item l) := by
  rw [list_unstaged_changes_loop_eq, count_unstaged_changes_eq]
  exact fill_loop_alloc _ _ l (fun s hs => unstaged_item_of_ok s (h s hs))

theorem untracked_fill (l : List git_status_entry) (h : ∀ s ∈ l, untracked_ok s = true) :
    list_untracked_files_loop l (FillState.alloc (count_untracked_files l))
      = some (FillState.final untracked_label workdir_item l) := by
  rw [list_untracked_files_loop_eq, count_untracked_files_eq]
  exact fill_loop_alloc _ _ l (fun s hs => untracked_item_of_ok s (h s hs))

theorem ignored_fill (l : List git_status_entry) (h : ∀ s ∈ l, ignored_ok s = true) :
    list_ignored_files_loop l (FillState.alloc (count_ignored_files l))
      = some (FillState.final ignored_label workdir_item l) := by
  rw [list_ignored_files_loop_eq, count_ignored_files_eq]
  exact fill_loop_alloc _ _ l (fun s hs => ignored_item_of_ok s (h s hs))

theorem list_staged_changes_eq (l : List git_status_entry) (h : ∀ s ∈ l, staged_ok s = true)
    (list : List (Option NamedList)) (list_index : Nat) :
    list_staged_changes list list_index l
      = SET_VECTOR_ELT list list_index (FillState.final staged_label staged_item l).named := by
  simp [list_staged_changes, staged_fill l h, FillState.named]

theorem list_unstaged_changes_eq (l : List git_status_entry)
    (h : ∀ s ∈ l, unstaged_ok s = true) (list : List (Option NamedList)) (list_index : Nat) :
    list_unstaged_changes list list_index l
      = SET_VECTOR_ELT list list_index
          (FillState.final unstaged_label unstaged_item l).named := by
  simp [list_unstaged_changes, unstaged_fill l h, FillState.named]

theorem list_untracked_files_eq (l : List git_status_entry)
    (h : ∀ s ∈ l, untracked_ok s = true) (list : List (Option NamedList)) (list_index : Nat) :
    list_untracked_files list list_index l
      = SET_VECTOR_ELT list list_index
          (FillState.final untracked_label workdir_item l).named := by
  simp [list_untracked_files, untracked_fill l h, FillState.named]

theorem list_ignored_files_eq (l : List git_status_entry)
    (h : ∀ s ∈ l, ignored_ok s = true) (list : List (Option NamedList)) (list_index : Nat) :
    list_ignored_files list list_index l
      = SET_VECTOR_ELT list list_index
          (FillState.final ignored_label workdir_item l).named := by
  simp [list_ignored_files, ignored_fill l h, FillState.named]

theorem well_formed_parts (s : git_status_entry) (h : well_formed s = true) :
    staged_ok s = true ∧ unstaged_ok s = true ∧ untracked_ok s = true
      ∧ ignored_ok s = true := by
  simpa [well_formed, and_assoc] using h

theorem SET_VECTOR_ELT_of_lt {α : Type} (x : List (Option α)) (i : Nat) (v : α)
    (h : i < x.length) : SET_VECTOR_ELT x i v = some (x.set i (some v)) := by
  simp [SET_VECTOR_ELT, h]

theorem istatus_eq_first_set (status : Nat) :
    istatus status = first_set index_categories status := by
  simp only [istatus, first_set, index_categories, List.find?]
  split_ifs <;> simp_all

theorem wstatus_eq_first_set (status : Nat) :
    wstatus status = first_set workdir_categories status := by
  simp only [wstatus, first_set, workdir_categories, List.find?]
  split_ifs <;> simp_all

theorem staged_label_eq (s : git_status_entry) :
    staged_label s = first_set index_categories s.status := by
  rw [← istatus_eq_first_set]
  unfold staged_label
  split
  · rename_i h
    rw [h]
    decide
  · rfl

theorem first_set_isSome (table : List (Nat × String)) (status : Nat) :
    (first_set table status).isSome = true ↔ ∃ p ∈ table, status &&& p.1 ≠ 0 := by
  simp [first_set, List.find?_isSome]

theorem listed_map_label (label : git_status_entry → Option String)
    (l : List git_status_entry) :
    (listed label l).map label = (l.filterMap label).map some := by
  induction l with
  | nil => rfl
  | cons s rest ih =>
    cases hl : label s with
    | none => rw [listed_cons_none _ _ _ hl]; simp [List.filterMap_cons, hl, ih]
    | some name => rw [listed_cons_some _ _ _ name hl]; simp [List.filterMap_cons, hl, ih]

theorem listed_item_ne_none (label : git_status_entry → Option String)
    (item : git_status_entry → Option (List String)) (l : List git_status_entry)
    (hok : ∀ s ∈ l, (label s).isSome = true → (item s).isSome = true) :
    ∀ x ∈ (listed label l).map item, x ≠ none := by
  intro x hx
  obtain ⟨s, hs, rfl⟩ := List.mem_map.mp hx
  have hsl : s ∈ l := (listed_sublist label l).subset hs
  have hlab : (label s).isSome = true := by
    simpa [listed] using (List.mem_filter.mp hs).2
  have := hok s hsl hlab
  intro hn
  rw [hn] at this
  simp at this

theorem listed_label_ne_none (label : git_status_entry → Option String)
    (l : List git_status_entry) : ∀ x ∈ (listed label l).map label, x ≠ none := by
  intro x hx
  obtain ⟨s, hs, rfl⟩ := List.mem_map.mp hx
  have hlab : (label s).isSome = true := by
    simpa [listed] using (List.mem_filter.mp hs).2
  intro hn
  rw [hn] at hlab
  simp at hlab

theorem unstaged_label_eq (s : git_status_entry) :
    unstaged_label s
      = if s.index_to_workdir.isSome = true then first_set workdir_categories s.status
        else none := by
  rw [← wstatus_eq_first_set]
  unfold unstaged_label
  by_cases hw : s.index_to_workdir = none
  · simp [hw]
  · have hw2 : s.index_to_workdir.isSome = true := Option.ne_none_iff_isSome.mp hw
    by_cases hc : s.status = GIT_STATUS_CURRENT
    · simp only [hc, true_or, if_true, hw2]
      decide
    · simp [hc, hw, hw2]

theorem path_item_pair_or_single (d : git_diff_delta) (it : List String)
    (h : path_item d.old_file.path d.new_file.path = some it) :
    pair_or_single d (some it) := by
  unfold pair_or_single two_paths
  cases ho : d.old_file.path with
  | none =>
    cases hn : d.new_file.path with
    | none => simp [path_item, mkChar, ho, hn] at h
    | some n =>
      simp only [path_item, mkChar, ho, hn] at h
      simp at h
      simp [h]
  | some o =>
    cases hn : d.new_file.path with
    | none =>
      simp only [path_item, mkChar, ho, hn] at h
      simp at h
      simp [h]
    | some n =>
      simp only [path_item, mkChar, ho, hn] at h
      by_cases hne : o = n
      · simp [hne] at h
        simp [hne, h]
      · simp [hne] at h
        simp [hne, h]

theorem final_exact_fill (label : git_status_entry → Option String)
    (item : git_status_entry → Option (List String)) (l : List git_status_entry)
    (hok : ∀ s ∈ l, (label s).isSome = true → (item s).isSome = true) :
    exact_fill (FillState.final label item l) (listed label l).length := by
  refine ⟨rfl, rfl, ?_, ?_, ?_, ?_⟩
  · simp [FillState.final]
  · simp [FillState.final]
  · exact listed_item_ne_none label item l hok
  · exact listed_label_ne_none label l

theorem listed_length_insert (label : git_status_entry → Option String)
    (l₁ l₂ : List git_status_entry) (s : git_status_entry) :
    (listed label (l₁ ++ s :: l₂)).length
      = (listed label (l₁ ++ l₂)).length + (if (label s).isSome = true then 1 else 0) := by
  rw [listed_append, listed_append]
  cases hl : label s with
  | none => rw [listed_cons_none _ _ _ hl]; simp
  | some name =>
    rw [listed_cons_some _ _ _ name hl]
    simp only [List.length_append, List.length_cons, Option.isSome_some, if_true]
    omega

theorem labels_exclusive (s : git_status_entry) :
    (if (unstaged_label s).isSome = true then 1 else 0)
        + (if (untracked_label s).isSome = true then 1 else 0)
        + (if (ignored_label s).isSome = true then 1 else 0) ≤ 1
      ∧ (0 < (if (untracked_label s).isSome = true then 1 else 0)
            + (if (ignored_label s).isSome = true then 1 else 0)
          → (if (staged_label s).isSome = true then 1 else 0) = 0) := by
  by_cases ht : s.status = GIT_STATUS_WT_NEW
  · have h1 : unstaged_label s = none := by
      unfold unstaged_label
      rw [ht]
      split
      · rfl
      · decide
    have h2 : ignored_label s = none := by
      unfold ignored_label
      rw [ht]
      decide
    have h3 : staged_label s = none := by
      unfold staged_label
      rw [ht]
      decide
    simp [h1, h2, h3]
    split <;> simp
  · have h0 : untracked_label s = none := by simp [untracked_label, ht]
    by_cases hi : s.status = GIT_STATUS_IGNORED
    · have h1 : unstaged_label s = none := by
        unfold unstaged_label
        rw [hi]
        split
        · rfl
        · decide
      have h3 : staged_label s = none := by
        unfold staged_label
        rw [hi]
        decide
      simp [h0, h1, h3]
      split <;> simp
    · have h2 : ignored_label s = none := by simp [ignored_label, hi]
      simp [h0, h2]
      split <;> simp

/-! ## Lemmas on commit -/

theorem commit_changes_in_index_eq (l : List git_status_entry) :
    commit_changes_in_index l = if (listed staged_label l).length = 0 then 0 else 1 := by
  induction l with
  | nil => simp [commit_changes_in_index, listed]
  | cons s rest ih =>
    cases hl : staged_label s with
    | none =>
      rw [listed_cons_none _ _ _ hl]
      simp only [staged_label, istatus] at hl
      simp only [commit_changes_in_index]
      split_ifs at hl ⊢ <;> simp_all
    | some name =>
      rw [listed_cons_some _ _ _ name hl]
      simp only [staged_label, istatus] at hl
      simp only [commit_changes_in_index, List.length_cons]
      split_ifs at hl ⊢ <;> simp_all

theorem commit_changes_in_index_eq_zero (l : List git_status_entry) :
    commit_changes_in_index l = 0 ↔ count_staged_changes l = 0 := by
  rw [commit_changes_in_index_eq, count_staged_changes_eq]
  split <;> simp_all

theorem commit_parents_loop_error (repository : git_repository) (log : List Effect)
    (parent_list : List String) :
    ∀ (remaining : Nat) (parents : List git_commit) (e : Failure),
      commit_parents_loop repository log parent_list remaining parents = .error e →
      e = Failure.fault ∨ ∃ err, e = Failure.git err := by
  intro remaining
  induction remaining with
  | zero => intro parents e h; simp [commit_parents_loop] at h
  | succ n ih =>
    intro parents e h
    simp only [commit_parents_loop] at h
    split at h
    · left; injection h with h; exact h.symm
    · split at h
      · right; injection h with h; exact ⟨_, h.symm⟩
      · split at h
        · right; injection h with h; exact ⟨_, h.symm⟩
        · exact ih _ _ h

theorem commit_parents_error (repository : git_repository) (log : List Effect)
    (parent_list : List String) (e : Failure)
    (h : commit_parents repository log parent_list = .error e) :
    e ≠ Failure.message err_nothing_added_to_commit := by
  unfold commit_parents at h
  simp only at h
  split at h
  · split at h
    · rcases commit_parents_loop_error _ _ _ _ _ _ h with h' | ⟨err, h'⟩ <;> simp [h']
    · injection h with h
      rw [← h]
      decide
  · simp at h

theorem commit_create_error (repository : git_repository) (log : List Effect)
    (message : String) (sig_author sig_committer : git_signature) (tree : git_tree)
    (count : Nat) (parents : List git_commit) (e : Failure)
    (h : (commit_create repository log message sig_author sig_committer tree count
      parents).1 = .error e) :
    ∃ err, e = Failure.git err := by
  unfold commit_create at h
  split at h
  · injection h with h; exact ⟨_, h.symm⟩
  · injection h with h; exact ⟨_, h.symm⟩
  · simp only at h
    split at h
    · injection h with h; exact ⟨_, h.symm⟩
    · simp at h

theorem commit_parents_first_bad (repository : git_repository) (log : List Effect)
    (p : String) (rest : List String)
    (hbad : (∃ err, repository.git_oid_fromstr p = .error err)
      ∨ ∃ oid, repository.git_oid_fromstr p = .ok oid
          ∧ ∀ log, ∃ err, repository.git_commit_lookup log oid = .error err) :
    ∃ e, commit_parents repository log (p :: rest) = .error e := by
  unfold commit_parents
  simp only [List.length_cons, ne_eq, Nat.add_one_ne_zero, not_false_eq_true, if_true]
  split
  · simp only [commit_parents_loop, List.getElem?_cons_zero]
    rcases hbad with ⟨err, h⟩ | ⟨oid, h, hl⟩
    · rw [h]; exact ⟨_, rfl⟩
    · rw [h]
      obtain ⟨err, hl'⟩ := hl log
      simp only [hl']
      exact ⟨_, rfl⟩
  · exact ⟨_, rfl⟩

/-! ## The claims -/

/-- C1. When `git_status_list_new` hands out a well-formed status list,
`status` returns, for every choice of the four selectors, one named sub-list
per selector that is true and none for one that is false: the names are those
of the selected categories in the order staged, unstaged, untracked, ignored,
the sub-lists are those of the same categories in the same order, and the
length is the number of true selectors. -/
theorem status_selected (repository : git_repository)
    (staged unstaged untracked ignored : Bool) (l : List git_status_entry)
    (hnew : repository.git_status_list_new GIT_STATUS_SHOW_INDEX_AND_WORKDIR
      (status_flags untracked ignored) = .ok l)
    (hwf : ∀ s ∈ l, well_formed s = true) :
    ∃ r, status repository staged unstaged untracked ignored = .ok r
      ∧ r.list_names = (selected_names staged unstaged untracked ignored).map some
      ∧ r.list = (selected_lists l staged unstaged untracked ignored).map some
      ∧ r.list.length = [staged, unstaged, untracked, ignored].count true
      ∧ r.list_names.length = [staged, unstaged, untracked, ignored].count true := by
  have h1 := list_staged_changes_eq l (fun s hs => (well_formed_parts s (hwf s hs)).1)
  have h2 := list_unstaged_changes_eq l (fun s hs => (well_formed_parts s (hwf s hs)).2.1)
  have h3 := list_untracked_files_eq l (fun s hs => (well_formed_parts s (hwf s hs)).2.2.1)
  have h4 := list_ignored_files_eq l (fun s hs => (well_formed_parts s (hwf s hs)).2.2.2)
  unfold status
  rw [hnew]
  cases staged <;> cases unstaged <;> cases untracked <;> cases ignored <;>
    simp [status_fill, LOGICAL, h1, h2, h3, h4, SET_VECTOR_ELT, SET_STRING_ELT,
      selected_names, selected_lists, List.replicate]

/-- Witness of C1 on the sample status list with unstaged and ignored selected. -/
theorem status_selected_witness :
    ∃ r, status (sample_repository sample_status_list 3) false true false true = .ok r
      ∧ r.list_names = (selected_names false true false true).map some
      ∧ r.list = (selected_lists sample_status_list false true false true).map some
      ∧ r.list.length = [false, true, false, true].count true
      ∧ r.list_names.length = [false, true, false, true].count true :=
  status_selected (sample_repository sample_status_list 3) false true false true
    sample_status_list rfl (by decide)

/-- C2. On a status list whose staged entries have their `head_to_index`
delta, `list_staged_changes` stores into `list[list_index]` a sub-list that
has one item per entry with at least one of the bits INDEX_NEW,
INDEX_MODIFIED, INDEX_DELETED, INDEX_RENAMED, INDEX_TYPECHANGE and none for
the other entries, and the label of such an item is that of the first of
these bits, in that order, that is set. -/
theorem list_staged_changes_labels (l : List git_status_entry)
    (h : ∀ s ∈ l, staged_ok s = true) (list : List (Option NamedList)) (list_index : Nat)
    (hi : list_index < list.length) :
    ∃ sub, list_staged_changes list list_index l = some (list.set list_index (some sub))
      ∧ sub.names = (l.filterMap (fun s => first_set index_categories s.status)).map some
      ∧ sub.elts = (l.filter (fun s => (first_set index_categories s.status).isSome)).map
          staged_item
      ∧ (∀ x ∈ sub.elts, x ≠ none)
      ∧ (∀ s : git_status_entry, (first_set index_categories s.status).isSome = true
          ↔ ∃ p ∈ index_categories, s.status &&& p.1 ≠ 0) := by
  refine ⟨(FillState.final staged_label staged_item l).named, ?_, ?_, ?_, ?_, ?_⟩
  · rw [list_staged_changes_eq l h, SET_VECTOR_ELT_of_lt _ _ _ hi]
  · have hf : staged_label = fun s => first_set index_categories s.status :=
      funext staged_label_eq
    simp only [FillState.named, FillState.final, listed_map_label]
    rw [hf]
  · have hf : staged_label = fun s => first_set index_categories s.status :=
      funext staged_label_eq
    simp only [FillState.named, FillState.final, listed, hf]
  · exact listed_item_ne_none _ _ l (fun s hs => staged_item_of_ok s (h s hs))
  · intro s
    exact first_set_isSome _ _

/-- Witness of C2 on the sample status list. -/
theorem list_staged_changes_labels_witness :
    ∃ sub, list_staged_changes [none] 0 sample_status_list = some ([none].set 0 (some sub))
      ∧ sub.names
          = (sample_status_list.filterMap
              (fun s => first_set index_categories s.status)).map some
      ∧ sub.elts
          = (sample_status_list.filter
              (fun s => (first_set index_categories s.status).isSome)).map staged_item
      ∧ (∀ x ∈ sub.elts, x ≠ none)
      ∧ (∀ s : git_status_entry, (first_set index_categories s.status).isSome = true
          ↔ ∃ p ∈ index_categories, s.status &&& p.1 ≠ 0) :=
  list_staged_changes_labels sample_status_list (by decide) [none] 0 (by decide)

/-- C3, the claim fails. An entry with a working-tree delta whose working-tree
bit is WT_NEW is not counted by `count_unstaged_changes` and gets no item,
hence no item labelled new, in the unstaged list. -/
theorem list_unstaged_changes_skips_new :
    sample_entry_untracked.index_to_workdir ≠ none
      ∧ sample_entry_untracked.status &&& GIT_STATUS_WT_NEW ≠ 0
      ∧ count_unstaged_changes [sample_entry_untracked] = 0
      ∧ list_unstaged_changes [none] 0 [sample_entry_untracked]
          = some [some { elts := [], names := [] }] := by
  decide

/-- C3 as amended. On a status list whose unstaged entries have a path in
their `index_to_workdir` delta, `list_unstaged_changes` classifies four ways:
it stores one item per entry that has an `index_to_workdir` delta and at least
one of the bits WT_MODIFIED, WT_DELETED, WT_RENAMED, WT_TYPECHANGE, labelled
with the first of modified, deleted, renamed, typechange whose bit is set, and
no item for any other entry; a status word that is WT_NEW alone gets no
label. -/
theorem list_unstaged_changes_labels (l : List git_status_entry)
    (h : ∀ s ∈ l, unstaged_ok s = true) (list : List (Option NamedList)) (list_index : Nat)
    (hi : list_index < list.length) :
    ∃ sub, list_unstaged_changes list list_index l = some (list.set list_index (some sub))
      ∧ sub.names
          = ((l.filter (fun s => s.index_to_workdir.isSome)).filterMap
              (fun s => first_set workdir_categories s.status)).map some
      ∧ sub.elts.length = sub.names.length
      ∧ (∀ x ∈ sub.elts, x ≠ none)
      ∧ (∀ s : git_status_entry, (first_set workdir_categories s.status).isSome = true
          ↔ ∃ p ∈ workdir_categories, s.status &&& p.1 ≠ 0)
      ∧ first_set workdir_categories GIT_STATUS_WT_NEW = none := by
  refine ⟨(FillState.final unstaged_label unstaged_item l).named, ?_, ?_, ?_, ?_, ?_, ?_⟩
  · rw [list_unstaged_changes_eq l h, SET_VECTOR_ELT_of_lt _ _ _ hi]
  · have hf : unstaged_label = fun s =>
        if s.index_to_workdir.isSome = true then first_set workdir_categories s.status
        else none := funext unstaged_label_eq
    simp only [FillState.named, FillState.final, listed_map_label]
    rw [hf, List.filterMap_filter]
  · simp [FillState.named, FillState.final]
  · exact listed_item_ne_none _ _ l (fun s hs => unstaged_item_of_ok s (h s hs))
  · intro s
    exact first_set_isSome _ _
  · decide

/-- Witness of C3 as amended on the sample status list. -/
theorem list_unstaged_changes_labels_witness :
    ∃ sub, list_unstaged_changes [none] 0 sample_status_list
        = some ([none].set 0 (some sub))
      ∧ sub.names
          = ((sample_status_list.filter (fun s => s.index_to_workdir.isSome)).filterMap
              (fun s => first_set workdir_categories s.status)).map some
      ∧ sub.elts.length = sub.names.length
      ∧ (∀ x ∈ sub.elts, x ≠ none)
      ∧ (∀ s : git_status_entry, (first_set workdir_categories s.status).isSome = true
          ↔ ∃ p ∈ workdir_categories, s.status &&& p.1 ≠ 0)
      ∧ first_set workdir_categories GIT_STATUS_WT_NEW = none :=
  list_unstaged_changes_labels sample_status_list (by decide) [none] 0 (by decide)

/-- C4. An entry whose `index_to_workdir` delta is absent is not counted by
`count_unstaged_changes` and adds nothing to the unstaged list, whatever its
status word: the count and the list are those of the status list without that
entry. -/
theorem unstaged_skips_absent_workdir (l₁ l₂ : List git_status_entry) (s : git_status_entry)
    (h : s.index_to_workdir = none) :
    count_unstaged_changes (l₁ ++ s :: l₂) = count_unstaged_changes (l₁ ++ l₂)
      ∧ ∀ (list : List (Option NamedList)) (list_index : Nat),
          list_unstaged_changes list list_index (l₁ ++ s :: l₂)
            = list_unstaged_changes list list_index (l₁ ++ l₂) := by
  have hl : unstaged_label s = none := by simp [unstaged_label, h]
  have hc : count_unstaged_changes (l₁ ++ s :: l₂) = count_unstaged_changes (l₁ ++ l₂) := by
    rw [count_unstaged_changes_eq, count_unstaged_changes_eq, listed_append, listed_append,
      listed_cons_none _ _ _ hl]
  refine ⟨hc, ?_⟩
  intro list list_index
  simp only [list_unstaged_changes, hc, list_unstaged_changes_loop_eq]
  rw [fill_loop_append, fill_loop_append]
  simp only [fill_loop, hl]

/-- Witness of C4: an entry with every working-tree bit set and no
`index_to_workdir` delta, between two entries of the sample status list. -/
theorem unstaged_skips_absent_workdir_witness :
    count_unstaged_changes
        ([sample_entry_added_edited]
          ++ { status := 3968, head_to_index := none, index_to_workdir := none }
            :: [sample_entry_untracked])
        = count_unstaged_changes ([sample_entry_added_edited] ++ [sample_entry_untracked])
      ∧ ∀ (list : List (Option NamedList)) (list_index : Nat),
          list_unstaged_changes list list_index
              ([sample_entry_added_edited]
                ++ { status := 3968, head_to_index := none, index_to_workdir := none }
                  :: [sample_entry_untracked])
            = list_unstaged_changes list list_index
                ([sample_entry_added_edited] ++ [sample_entry_untracked]) :=
  unstaged_skips_absent_workdir [sample_entry_added_edited] [sample_entry_untracked]
    { status := 3968, head_to_index := none, index_to_workdir := none } rfl

/-- C5, the claim fails. A file renamed in the index and edited in the same
step (status INDEX_RENAMED | INDEX_MODIFIED, two different paths) is listed
as staged with the label modified and yet with the pair of old and new path. -/
theorem list_staged_changes_pair_without_renamed :
    list_staged_changes [none] 0 [sample_entry_renamed_edited]
      = some [some { elts := [some ["old.txt", "new.txt"]], names := [some "modified"] }] := by
  decide

/-- C5 as amended. In the staged and the unstaged list the number of paths of
an item follows from the paths of the delta of its entry (`head_to_index` for
staged, `index_to_workdir` for unstaged), whatever its label: the item is the
pair of old and new path if and only if both are there and differ, and else it
is the one path. -/
theorem items_pair_or_single (l : List git_status_entry)
    (h : ∀ s ∈ l, staged_ok s = true ∧ unstaged_ok s = true)
    (list : List (Option NamedList)) (list_index : Nat) (hi : list_index < list.length) :
    (∃ sub, list_staged_changes list list_index l = some (list.set list_index (some sub))
        ∧ sub.elts = (listed staged_label l).map staged_item
        ∧ ∀ s ∈ listed staged_label l,
            ∃ d, s.head_to_index = some d ∧ pair_or_single d (staged_item s))
      ∧ (∃ sub, list_unstaged_changes list list_index l
            = some (list.set list_index (some sub))
        ∧ sub.elts = (listed unstaged_label l).map unstaged_item
        ∧ ∀ s ∈ listed unstaged_label l,
            ∃ d, s.index_to_workdir = some d ∧ pair_or_single d (unstaged_item s)) := by
  constructor
  · refine ⟨(FillState.final staged_label staged_item l).named, ?_, rfl, ?_⟩
    · rw [list_staged_changes_eq l (fun s hs => (h s hs).1), SET_VECTOR_ELT_of_lt _ _ _ hi]
    · intro s hs
      have hsl : s ∈ l := (listed_sublist staged_label l).subset hs
      have hlab : (staged_label s).isSome = true := by
        simpa [listed] using (List.mem_filter.mp hs).2
      obtain ⟨it, hit⟩ := Option.isSome_iff_exists.mp (staged_item_of_ok s (h s hsl).1 hlab)
      cases hd : s.head_to_index with
      | none => simp [staged_item, hd] at hit
      | some d =>
        refine ⟨d, rfl, ?_⟩
        rw [hit]
        apply path_item_pair_or_single
        simpa [staged_item, hd] using hit
  · refine ⟨(FillState.final unstaged_label unstaged_item l).named, ?_, rfl, ?_⟩
    · rw [list_unstaged_changes_eq l (fun s hs => (h s hs).2),
        SET_VECTOR_ELT_of_lt _ _ _ hi]
    · intro s hs
      have hsl : s ∈ l := (listed_sublist unstaged_label l).subset hs
      have hlab : (unstaged_label s).isSome = true := by
        simpa [listed] using (List.mem_filter.mp hs).2
      obtain ⟨it, hit⟩ := Option.isSome_iff_exists.mp
        (unstaged_item_of_ok s (h s hsl).2 hlab)
      cases hd : s.index_to_workdir with
      | none => simp [unstaged_item, hd] at hit
      | some d =>
        refine ⟨d, rfl, ?_⟩
        rw [hit]
        apply path_item_pair_or_single
        simpa [unstaged_item, hd] using hit

/-- Witness of C5 as amended on the sample status list. -/
theorem items_pair_or_single_witness :
    (∃ sub, list_staged_changes [none] 0 sample_status_list
          = some ([none].set 0 (some sub))
        ∧ sub.elts = (listed staged_label sample_status_list).map staged_item
        ∧ ∀ s ∈ listed staged_label sample_status_list,
            ∃ d, s.head_to_index = some d ∧ pair_or_single d (staged_item s))
      ∧ (∃ sub, list_unstaged_changes [none] 0 sample_status_list
            = some ([none].set 0 (some sub))
        ∧ sub.elts = (listed unstaged_label sample_status_list).map unstaged_item
        ∧ ∀ s ∈ listed unstaged_label sample_status_list,
            ∃ d, s.index_to_workdir = some d ∧ pair_or_single d (unstaged_item s)) :=
  items_pair_or_single sample_status_list (by decide) [none] 0 (by decide)

/-- C6. On a well-formed status list each of the four fill passes, started on
the vectors sized by its counting pass, ends with its write index equal to the
count, having written the slots `0 .. count-1` once each in this order (so no
write index reaches the count) and leaving no slot unassigned. -/
theorem fill_matches_count (l : List git_status_entry)
    (hwf : ∀ s ∈ l, well_formed s = true) :
    (∃ st, list_staged_changes_loop l (FillState.alloc (count_staged_changes l)) = some st
        ∧ exact_fill st (count_staged_changes l))
      ∧ (∃ st, list_unstaged_changes_loop l (FillState.alloc (count_unstaged_changes l))
            = some st
          ∧ exact_fill st (count_unstaged_changes l))
      ∧ (∃ st, list_untracked_files_loop l (FillState.alloc (count_untracked_files l))
            = some st
          ∧ exact_fill st (count_untracked_files l))
      ∧ (∃ st, list_ignored_files_loop l (FillState.alloc (count_ignored_files l))
            = some st
          ∧ exact_fill st (count_ignored_files l)) := by
  have h1 : ∀ s ∈ l, staged_ok s = true := fun s hs => (well_formed_parts s (hwf s hs)).1
  have h2 : ∀ s ∈ l, unstaged_ok s = true := fun s hs => (well_formed_parts s (hwf s hs)).2.1
  have h3 : ∀ s ∈ l, untracked_ok s = true :=
    fun s hs => (well_formed_parts s (hwf s hs)).2.2.1
  have h4 : ∀ s ∈ l, ignored_ok s = true :=
    fun s hs => (well_formed_parts s (hwf s hs)).2.2.2
  refine ⟨⟨_, staged_fill l h1, ?_⟩, ⟨_, unstaged_fill l h2, ?_⟩,
    ⟨_, untracked_fill l h3, ?_⟩, ⟨_, ignored_fill l h4, ?_⟩⟩
  · rw [count_staged_changes_eq]
    exact final_exact_fill _ _ l (fun s hs => staged_item_of_ok s (h1 s hs))
  · rw [count_unstaged_changes_eq]
    exact final_exact_fill _ _ l (fun s hs => unstaged_item_of_ok s (h2 s hs))
  · rw [count_untracked_files_eq]
    exact final_exact_fill _ _ l (fun s hs => untracked_item_of_ok s (h3 s hs))
  · rw [count_ignored_files_eq]
    exact final_exact_fill _ _ l (fun s hs => ignored_item_of_ok s (h4 s hs))

/-- Witness of C6 on the sample status list. -/
theorem fill_matches_count_witness :
    (∃ st, list_staged_changes_loop sample_status_list
          (FillState.alloc (count_staged_changes sample_status_list)) = some st
        ∧ exact_fill st (count_staged_changes sample_status_list))
      ∧ (∃ st, list_unstaged_changes_loop sample_status_list
            (FillState.alloc (count_unstaged_changes sample_status_list)) = some st
          ∧ exact_fill st (count_unstaged_changes sample_status_list))
      ∧ (∃ st, list_untracked_files_loop sample_status_list
            (FillState.alloc (count_untracked_files sample_status_list)) = some st
          ∧ exact_fill st (count_untracked_files sample_status_list))
      ∧ (∃ st, list_ignored_files_loop sample_status_list
            (FillState.alloc (count_ignored_files sample_status_list)) = some st
          ∧ exact_fill st (count_ignored_files sample_status_list)) :=
  fill_matches_count sample_status_list (by decide)

/-- C8. In a well-formed status list `l₁ ++ s :: l₂` the entry `s` adds `cs`,
`cu`, `ct`, `ci` items to the staged, unstaged, untracked and ignored list
(measured against the lists of `l₁ ++ l₂`), where each number is at most one,
at most one of `cu`, `ct`, `ci` is one, and `cs` is zero when `ct` or `ci` is
one; staged together with unstaged does occur. -/
theorem status_partition (l₁ l₂ : List git_status_entry) (s : git_status_entry)
    (hwf : ∀ x ∈ l₁ ++ s :: l₂, well_formed x = true) :
    (∃ ns nu nt ni cs cu ct ci : Nat,
      items_stored list_staged_changes_loop count_staged_changes (l₁ ++ l₂) = some ns
      ∧ items_stored list_staged_changes_loop count_staged_changes (l₁ ++ s :: l₂)
          = some (ns + cs)
      ∧ items_stored list_unstaged_changes_loop count_unstaged_changes (l₁ ++ l₂) = some nu
      ∧ items_stored list_unstaged_changes_loop count_unstaged_changes (l₁ ++ s :: l₂)
          = some (nu + cu)
      ∧ items_stored list_untracked_files_loop count_untracked_files (l₁ ++ l₂) = some nt
      ∧ items_stored list_untracked_files_loop count_untracked_files (l₁ ++ s :: l₂)
          = some (nt + ct)
      ∧ items_stored list_ignored_files_loop count_ignored_files (l₁ ++ l₂) = some ni
      ∧ items_stored list_ignored_files_loop count_ignored_files (l₁ ++ s :: l₂)
          = some (ni + ci)
      ∧ cs ≤ 1 ∧ cu + ct + ci ≤ 1 ∧ (0 < ct + ci → cs = 0))
    ∧ items_stored list_staged_changes_loop count_staged_changes [sample_entry_added_edited]
        = some 1
    ∧ items_stored list_unstaged_changes_loop count_unstaged_changes
        [sample_entry_added_edited] = some 1 := by
  have hwf' : ∀ x ∈ l₁ ++ l₂, well_formed x = true := by
    intro x hx
    apply hwf
    rcases List.mem_append.mp hx with h | h
    · exact List.mem_append_left _ h
    · exact List.mem_append_right _ (List.mem_cons_of_mem _ h)
  have key : ∀ (l : List git_status_entry), (∀ x ∈ l, well_formed x = true) →
      items_stored list_staged_changes_loop count_staged_changes l
          = some (listed staged_label l).length
        ∧ items_stored list_unstaged_changes_loop count_unstaged_changes l
          = some (listed unstaged_label l).length
        ∧ items_stored list_untracked_files_loop count_untracked_files l
          = some (listed untracked_label l).length
        ∧ items_stored list_ignored_files_loop count_ignored_files l
          = some (listed ignored_label l).length := by
    intro l hl
    have h1 : ∀ s ∈ l, staged_ok s = true := fun s hs => (well_formed_parts s (hl s hs)).1
    have h2 : ∀ s ∈ l, unstaged_ok s = true :=
      fun s hs => (well_formed_parts s (hl s hs)).2.1
    have h3 : ∀ s ∈ l, untracked_ok s = true :=
      fun s hs => (well_formed_parts s (hl s hs)).2.2.1
    have h4 : ∀ s ∈ l, ignored_ok s = true :=
      fun s hs => (well_formed_parts s (hl s hs)).2.2.2
    simp [items_stored, staged_fill l h1, unstaged_fill l h2, untracked_fill l h3,
      ignored_fill l h4, FillState.final]
  obtain ⟨a1, a2, a3, a4⟩ := key _ hwf
  obtain ⟨b1, b2, b3, b4⟩ := key _ hwf'
  have hex := labels_exclusive s
  refine ⟨⟨_, _, _, _, if (staged_label s).isSome = true then 1 else 0,
    if (unstaged_label s).isSome = true then 1 else 0,
    if (untracked_label s).isSome = true then 1 else 0,
    if (ignored_label s).isSome = true then 1 else 0,
    b1, ?_, b2, ?_, b3, ?_, b4, ?_, ?_, hex.1, hex.2⟩, by decide, by decide⟩
  · rw [a1, listed_length_insert]
  · rw [a2, listed_length_insert]
  · rw [a3, listed_length_insert]
  · rw [a4, listed_length_insert]
  · split <;> omega

/-- Witness of C8: the untracked entry of the sample status list in its
place. -/
theorem status_partition_witness :
    (∃ ns nu nt ni cs cu ct ci : Nat,
      items_stored list_staged_changes_loop count_staged_changes
          ([sample_entry_added_edited] ++ [sample_entry_ignored]) = some ns
      ∧ items_stored list_staged_changes_loop count_staged_changes
          ([sample_entry_added_edited] ++ sample_entry_untracked :: [sample_entry_ignored])
          = some (ns + cs)
      ∧ items_stored list_unstaged_changes_loop count_unstaged_changes
          ([sample_entry_added_edited] ++ [sample_entry_ignored]) = some nu
      ∧ items_stored list_unstaged_changes_loop count_unstaged_changes
          ([sample_entry_added_edited] ++ sample_entry_untracked :: [sample_entry_ignored])
          = some (nu + cu)
      ∧ items_stored list_untracked_files_loop count_untracked_files
          ([sample_entry_added_edited] ++ [sample_entry_ignored]) = some nt
      ∧ items_stored list_untracked_files_loop count_untracked_files
          ([sample_entry_added_edited] ++ sample_entry_untracked :: [sample_entry_ignored])
          = some (nt + ct)
      ∧ items_stored list_ignored_files_loop count_ignored_files
          ([sample_entry_added_edited] ++ [sample_entry_ignored]) = some ni
      ∧ items_stored list_ignored_files_loop count_ignored_files
          ([sample_entry_added_edited] ++ sample_entry_untracked :: [sample_entry_ignored])
          = some (ni + ci)
      ∧ cs ≤ 1 ∧ cu + ct + ci ≤ 1 ∧ (0 < ct + ci → cs = 0))
    ∧ items_stored list_staged_changes_loop count_staged_changes [sample_entry_added_edited]
        = some 1
    ∧ items_stored list_unstaged_changes_loop count_unstaged_changes
        [sample_entry_added_edited] = some 1 :=
  status_partition [sample_entry_added_edited] [sample_entry_ignored] sample_entry_untracked
    (by decide)

/-- C9, the claim fails. With every file removed from the index the staged set
is not empty (one INDEX_DELETED entry) and yet `commit` fails with the
nothing-to-commit message, raised by the second guard
`!git_index_entrycount(index)`. -/
theorem commit_nothing_added_with_staged_change :
    count_staged_changes [sample_entry_deleted] = 1
      ∧ commit (sample_repository [sample_entry_deleted] 0) "remove all" sample_signature
          sample_signature []
        = (.error (.message err_nothing_added_to_commit), []) :=
  ⟨by decide, rfl⟩

/-- C9 as amended. When both signatures are built and the status list is
obtained, `commit` fails with the nothing-to-commit message if and only if the
staged set is empty (`count_staged_changes` is zero) or it is not empty, the
index is opened and the index has no entry. -/
theorem commit_nothing_added_iff (repository : git_repository) (message : String)
    (author committer : git_signature) (parent_list : List String)
    (sig_author sig_committer : git_signature) (l : List git_status_entry)
    (ha : repository.git_signature_new author.name author.email author.time author.offset
      = .ok sig_author)
    (hc : repository.git_signature_new committer.name committer.email committer.time
      committer.offset = .ok sig_committer)
    (hs : repository.git_status_list_new GIT_STATUS_SHOW_INDEX_ONLY 0 = .ok l) :
    (commit repository message author committer parent_list).1
        = .error (.message err_nothing_added_to_commit)
      ↔ (count_staged_changes l = 0
          ∨ ∃ index, repository.git_repository_index = .ok index ∧ index.entrycount = 0) := by
  unfold commit
  rw [ha, hc, hs]
  simp only
  by_cases h0 : commit_changes_in_index l = 0
  · simp [h0, (commit_changes_in_index_eq_zero l).mp h0]
  · have h0' : ¬ count_staged_changes l = 0 :=
      fun h => h0 ((commit_changes_in_index_eq_zero l).mpr h)
    simp only [h0, if_false, h0', false_or]
    cases hidx : repository.git_repository_index with
    | error err => simp
    | ok index =>
      simp only
      by_cases he : index.entrycount = 0
      · simp [he]
      · simp only [he, if_false]
        have hr : ¬ ∃ index_1, (Except.ok index : Except Int git_index) = Except.ok index_1
            ∧ index_1.entrycount = 0 := by
          rintro ⟨i, hi, hz⟩
          injection hi with hi
          exact he (hi ▸ hz)
        simp only [hr, iff_false]
        cases repository.git_index_write_tree index with
        | error err => simp
        | ok tree_oid =>
          simp only
          cases repository.git_tree_lookup [Effect.tree_written tree_oid] tree_oid with
          | error err => simp
          | ok tree =>
            simp only
            cases hp : commit_parents repository [Effect.tree_written tree_oid] parent_list with
            | error e =>
              simp only
              intro h
              injection h with h
              exact commit_parents_error _ _ _ _ hp h
            | ok parents =>
              simp only
              intro h
              obtain ⟨err, herr⟩ := commit_create_error _ _ _ _ _ _ _ _ _ h
              simp at herr

/-- Witness of C9 as amended on the sample repository. -/
theorem commit_nothing_added_iff_witness :
    (commit (sample_repository sample_status_list 3) "edit" sample_signature
          sample_signature []).1
        = .error (.message err_nothing_added_to_commit)
      ↔ (count_staged_changes sample_status_list = 0
          ∨ ∃ index, (sample_repository sample_status_list 3).git_repository_index
              = .ok index ∧ index.entrycount = 0) :=
  commit_nothing_added_iff (sample_repository sample_status_list 3) "edit" sample_signature
    sample_signature [] sample_signature sample_signature sample_status_list rfl rfl rfl

/-- C10, the claim fails. A call whose only parent id does not parse aborts
after `git_index_write_tree` has written the tree object. -/
theorem commit_bad_parent_after_tree_written :
    (sample_repository sample_status_list 3).git_oid_fromstr "not-an-id" = .error (-1)
      ∧ commit (sample_repository sample_status_list 3) "edit" sample_signature
          sample_signature ["not-an-id"]
        = (.error (.git (-1)),
            [Effect.tree_written "4b825dc642cb6eb9a060e54bf8d69288fbee4904"]) :=
  ⟨rfl, rfl⟩

/-- C10 as amended. When the first supplied parent id does not parse or does
not resolve to a commit, `commit` fails, and no commit object has been written
and no reference moved: the only change it can have made is the tree object
written by `git_index_write_tree` before the parents are resolved. -/
theorem commit_bad_first_parent (repository : git_repository) (message : String)
    (author committer : git_signature) (p : String) (rest : List String)
    (hbad : (∃ err, repository.git_oid_fromstr p = .error err)
      ∨ ∃ oid, repository.git_oid_fromstr p = .ok oid
          ∧ ∀ log, ∃ err, repository.git_commit_lookup log oid = .error err) :
    (∃ e, (commit repository message author committer (p :: rest)).1 = .error e)
      ∧ ∀ x ∈ (commit repository message author committer (p :: rest)).2,
          ∃ tree_oid, x = Effect.tree_written tree_oid := by
  unfold commit
  split
  · exact ⟨⟨_, rfl⟩, by simp⟩
  · split
    · exact ⟨⟨_, rfl⟩, by simp⟩
    · split
      · exact ⟨⟨_, rfl⟩, by simp⟩
      · split
        · exact ⟨⟨_, rfl⟩, by simp⟩
        · split
          · exact ⟨⟨_, rfl⟩, by simp⟩
          · split
            · exact ⟨⟨_, rfl⟩, by simp⟩
            · split
              · exact ⟨⟨_, rfl⟩, by simp⟩
              · simp only
                split
                · exact ⟨⟨_, rfl⟩, by simp⟩
                · split
                  · exact ⟨⟨_, rfl⟩, by simp⟩
                  · rename_i hp
                    obtain ⟨e, he⟩ := commit_parents_first_bad repository _ p rest hbad
                    rw [he] at hp
                    simp at hp

/-- Witness of C10 as amended on the sample repository. -/
theorem commit_bad_first_parent_witness :
    (∃ e, (commit (sample_repository sample_status_list 3) "edit" sample_signature
          sample_signature ("not-an-id" :: [])).1 = .error e)
      ∧ ∀ x ∈ (commit (sample_repository sample_status_list 3) "edit" sample_signature
            sample_signature ("not-an-id" :: [])).2,
          ∃ tree_oid, x = Effect.tree_written tree_oid :=
  commit_bad_first_parent (sample_repository sample_status_list 3) "edit" sample_signature
    sample_signature "not-an-id" [] (Or.inl ⟨-1, rfl⟩)

/-- C11, the code at the failing input. With the two different parent ids
`sample_parent_a`, `sample_parent_b`, both of which parse and resolve, `commit`
creates a commit whose two parents are both `sample_parent_a`: every iteration
of the parent loop parses `STRING_ELT(parent_list, 0)`. -/
theorem commit_parents_all_first :
    sample_parent_a ≠ sample_parent_b
      ∧ commit (sample_repository sample_status_list 3) "merge" sample_signature
          sample_signature [sample_parent_a, sample_parent_b]
        = (.ok { hex := "9fceb02d0ae598e95dc970b74767f19372d61af8", author := none,
                 committer := none, summary := none, message := none },
            [Effect.tree_written "4b825dc642cb6eb9a060e54bf8d69288fbee4904",
             Effect.commit_written "9fceb02d0ae598e95dc970b74767f19372d61af8"
               "4b825dc642cb6eb9a060e54bf8d69288fbee4904" [sample_parent_a, sample_parent_a],
             Effect.ref_updated "HEAD" "9fceb02d0ae598e95dc970b74767f19372d61af8"]) :=
  ⟨by decide, rfl⟩

theorem commit_create_cases (repository : git_repository) (log : List Effect)
    (message : String) (sig_author sig_committer : git_signature) (tree : git_tree)
    (count : Nat) (parents : List git_commit) :
    ((∃ err, (commit_create repository log message sig_author sig_committer tree count
          parents).1 = .error (.git err))
        ∧ ((commit_create repository log message sig_author sig_committer tree count
              parents).2 = log
          ∨ ∃ id, (commit_create repository log message sig_author sig_committer tree count
              parents).2 = log ++ [.commit_written id tree.id (parents.map (·.id))]))
      ∨ ∃ id, (commit_create repository log message sig_author sig_committer tree count
            parents).2
          = log ++ [.commit_written id tree.id (parents.map (·.id)), .ref_updated "HEAD" id]
        ∧ (commit_create repository log message sig_author sig_committer tree count
            parents).1
          = match repository.git_commit_lookup
                (log ++ [.commit_written id tree.id (parents.map (·.id)),
                  .ref_updated "HEAD" id]) id with
            | .error err => .error (.git err)
            | .ok new_commit => .ok (init_commit new_commit) := by
  unfold commit_create
  split
  · exact Or.inl ⟨⟨_, rfl⟩, Or.inl rfl⟩
  · exact Or.inl ⟨⟨_, rfl⟩, Or.inr ⟨_, rfl⟩⟩
  · rename_i commit_id _
    refine Or.inr ⟨commit_id, ?_, ?_⟩
    · simp only
      split <;> rfl
    · simp only
      split <;> simp_all

/-- C12, the claim fails. On a repository where the new commit cannot be read
back, `commit` reports a failure although `git_commit_create` has already
moved HEAD to the new commit. -/
theorem commit_fails_after_ref_update :
    commit (sample_repository_unreadable sample_status_list 3) "edit" sample_signature
        sample_signature []
      = (.error (.git (-3)),
          [Effect.tree_written "4b825dc642cb6eb9a060e54bf8d69288fbee4904",
           Effect.commit_written "9fceb02d0ae598e95dc970b74767f19372d61af8"
             "4b825dc642cb6eb9a060e54bf8d69288fbee4904" [],
           Effect.ref_updated "HEAD" "9fceb02d0ae598e95dc970b74767f19372d61af8"]) :=
  rfl

/-- C12 as amended. Every call of `commit` ends in one of two ways. Either it
reports a failure and no reference has been moved, and when that failure is
the nothing-to-commit message nothing at all has been changed. Or
`git_commit_create` has stored the commit `id` and moved HEAD to it as the
last change, and the call returns the descriptor of the commit read back under
`id`, or reports the failure of that read with HEAD already moved. -/
theorem commit_ref_update (repository : git_repository) (message : String)
    (author committer : git_signature) (parent_list : List String) :
    ((∃ e, (commit repository message author committer parent_list).1 = .error e)
        ∧ (∀ name id, Effect.ref_updated name id
            ∉ (commit repository message author committer parent_list).2)
        ∧ ((commit repository message author committer parent_list).1
              = .error (.message err_nothing_added_to_commit)
            → (commit repository message author committer parent_list).2 = []))
      ∨ ∃ id t₁ t₂ parents,
          (commit repository message author committer parent_list).2
            = [.tree_written t₁, .commit_written id t₂ parents, .ref_updated "HEAD" id]
          ∧ (commit repository message author committer parent_list).1
            = match repository.git_commit_lookup
                  [.tree_written t₁, .commit_written id t₂ parents, .ref_updated "HEAD" id]
                  id with
              | .error err => .error (.git err)
              | .ok new_commit => .ok (init_commit new_commit) := by
  unfold commit
  cases repository.git_signature_new author.name author.email author.time author.offset with
  | error err => exact Or.inl ⟨⟨_, rfl⟩, by simp, by simp⟩
  | ok sig_author =>
  cases repository.git_signature_new committer.name committer.email committer.time
      committer.offset with
  | error err => exact Or.inl ⟨⟨_, rfl⟩, by simp, by simp⟩
  | ok sig_committer =>
  cases repository.git_status_list_new GIT_STATUS_SHOW_INDEX_ONLY 0 with
  | error err => exact Or.inl ⟨⟨_, rfl⟩, by simp, by simp⟩
  | ok l =>
  simp only
  split
  · exact Or.inl ⟨⟨_, rfl⟩, by simp, by simp⟩
  cases repository.git_repository_index with
  | error err => exact Or.inl ⟨⟨_, rfl⟩, by simp, by simp⟩
  | ok index =>
  simp only
  split
  · exact Or.inl ⟨⟨_, rfl⟩, by simp, by simp⟩
  cases repository.git_index_write_tree index with
  | error err => exact Or.inl ⟨⟨_, rfl⟩, by simp, by simp⟩
  | ok tree_oid =>
  simp only
  cases repository.git_tree_lookup [Effect.tree_written tree_oid] tree_oid with
  | error err => exact Or.inl ⟨⟨_, rfl⟩, by simp, by simp⟩
  | ok tree =>
  simp only
  cases hp : commit_parents repository [Effect.tree_written tree_oid] parent_list with
  | error e =>
    refine Or.inl ⟨⟨_, rfl⟩, by simp, ?_⟩
    intro h
    injection h with h
    exact absurd h (commit_parents_error _ _ _ _ hp)
  | ok parents =>
    simp only
    rcases commit_create_cases repository [Effect.tree_written tree_oid] message sig_author
      sig_committer tree parent_list.length parents with ⟨⟨err, he⟩, hl⟩ | ⟨id, hl, hr⟩
    · refine Or.inl ⟨⟨_, he⟩, ?_, ?_⟩
      · rcases hl with hl | ⟨id, hl⟩ <;> rw [hl] <;> simp
      · rw [he]; simp
    · exact Or.inr ⟨id, tree_oid, tree.id, parents.map (fun c => c.id), by simpa using hl,
        by simpa using hr⟩

/-! ## Lemmas on revisions, tags and config -/

theorem number_of_revisions_loop_fst (items : List git_oid) (n : Nat) (tr : List RevEvent) :
    (number_of_revisions_loop items n tr).1 = n + items.length := by
  induction items generalizing n tr with
  | nil => simp [number_of_revisions_loop]
  | cons _ rest ih =>
    simp only [number_of_revisions_loop, ih, List.length_cons]
    omega

theorem number_of_revisions_loop_stores (items : List git_oid) (n : Nat)
    (tr : List RevEvent) :
    stores (number_of_revisions_loop items n tr).2 = stores tr := by
  have happ : ∀ t : List RevEvent, stores (t ++ [RevEvent.next]) = stores t := by
    intro t
    induction t with
    | nil => rfl
    | cons e rest ih => cases e <;> simp [stores, ih]
  induction items generalizing n tr with
  | nil => simp [number_of_revisions_loop, happ]
  | cons _ rest ih => simp only [number_of_revisions_loop, ih, happ]

theorem stores_append (a b : List RevEvent) : stores (a ++ b) = stores a ++ stores b := by
  induction a with
  | nil => rfl
  | cons e rest ih => cases e <;> simp [stores, ih]

theorem revisions_loop_ok (repository : revwalk_repository) (c : git_oid → git_commit) :
    ∀ (ids : List git_oid) (pre : List sexp_commit) (k : Nat) (tr : List RevEvent),
      (∀ id ∈ ids, repository.git_commit_lookup id = .ok (c id)) → ids.length ≤ k →
      ∃ tr', revisions_loop repository ids GIT_ITEROVER
            (pre.map some ++ List.replicate k none) pre.length tr
          = (.ok ((pre ++ ids.map (fun id => init_commit (c id))).map some
              ++ List.replicate (k - ids.length) none), tr')
        ∧ stores tr' = stores tr ++ List.range' pre.length ids.length := by
  intro ids
  induction ids with
  | nil =>
    intro pre k tr _ _
    refine ⟨tr ++ [RevEvent.next], ?_, ?_⟩
    · simp [revisions_loop, GIT_ITEROVER]
    · simp [stores_append, stores]
  | cons id rest ih =>
    intro pre k tr hl hk
    have hid := hl id (List.mem_cons_self _ _)
    have hrest : ∀ x ∈ rest, repository.git_commit_lookup x = .ok (c x) :=
      fun x hx => hl x (List.mem_cons_of_mem _ hx)
    simp only [List.length_cons] at hk
    obtain ⟨k', rfl⟩ : ∃ k', k = k' + 1 := ⟨k - 1, by omega⟩
    have hset : SET_VECTOR_ELT (pre.map some ++ List.replicate (k' + 1) none) pre.length
        (init_commit (c id))
        = some ((pre ++ [init_commit (c id)]).map some ++ List.replicate k' none) := by
      simp [SET_VECTOR_ELT, List.replicate_succ]
    obtain ⟨tr', h1, h2⟩ := ih (pre ++ [init_commit (c id)]) k'
      (tr ++ [RevEvent.next, RevEvent.set_vector_elt pre.length]) hrest (by omega)
    refine ⟨tr', ?_, ?_⟩
    · simp only [revisions_loop, hid, hset]
      simp only [List.length_append, List.length_singleton] at h1
      rw [h1]
      simp [List.append_assoc]
    · rw [h2]
      simp [stores_append, stores, List.range'_succ]

theorem tags_loop_prefix_ok (repository : tags_repository) (t : String → git_tag) :
    ∀ (pre : List String) (done : List (Option sexp_tag)) (k : Nat) (rest : List String),
      (∀ m ∈ pre, resolves_to_tag repository m (t m)) → pre.length ≤ k →
      tags_loop repository (pre ++ rest) (done ++ List.replicate k none) done.length
        = tags_loop repository rest
            ((done ++ pre.map (fun m => init_tag (t m)))
              ++ List.replicate (k - pre.length) none)
            (done.length + pre.length) := by
  intro pre
  induction pre with
  | nil => intro done k rest _ _; simp
  | cons m pre' ih =>
    intro done k rest hres hk
    obtain ⟨reference, oid, hd, ht, hl, hm⟩ := hres m (List.mem_cons_self _ _)
    have hrest : ∀ x ∈ pre', resolves_to_tag repository x (t x) :=
      fun x hx => hres x (List.mem_cons_of_mem _ hx)
    simp only [List.length_cons] at hk
    obtain ⟨k', rfl⟩ : ∃ k', k = k' + 1 := ⟨k - 1, by omega⟩
    obtain ⟨msg, hmsg⟩ := Option.ne_none_iff_exists'.mp hm
    obtain ⟨x, hinit⟩ : ∃ x, init_tag (t m) = some x := by
      simp [init_tag, mkChar, hmsg]
    have hset : ∀ x : sexp_tag,
        SET_VECTOR_ELT (done ++ List.replicate (k' + 1) none) done.length x
          = some ((done ++ [some x]) ++ List.replicate k' none) := by
      intro x
      simp [SET_VECTOR_ELT, List.replicate_succ]
    simp only [List.cons_append, tags_loop, hd, ht, hl, hinit, hset, List.append_eq]
    have h := ih (done ++ [some x]) k' rest hrest (by omega)
    simp only [List.length_append, List.length_singleton] at h
    rw [h]
    simp [List.append_assoc, hinit, Nat.add_assoc, Nat.add_comm 1]

/-- C13. On an empty repository (`git_repository_is_empty` returns nonzero,
libgit2 returns 1) `revisions` returns the empty list, raises no error and
makes no call on a revision walker. -/
theorem revisions_empty_repository (repository : revwalk_repository)
    (h : repository.git_repository_is_empty ≠ 0) :
    revisions repository = (.ok [], []) := by
  simp [revisions, h]

/-- Witness of C13 on the empty sample repository. -/
theorem revisions_empty_repository_witness :
    revisions sample_empty_repository = (.ok [], []) :=
  revisions_empty_repository sample_empty_repository (by decide)

/-- C14. On a non-empty repository where the walker is created, both walks
from HEAD yield the same `k` ids and then end of iteration, and every id is
found as the commit `c id` with that id, the count of `number_of_revisions` is
`k`, and `revisions` returns `k` descriptors with no slot unassigned, the
`i`-th of which has the `i`-th id as `hex` and the author, committer, summary
and message of the commit of that id; its stores go to the indices
`0 .. k-1`, once each and in order. -/
theorem revisions_two_pass (repository : revwalk_repository) (ids : List git_oid)
    (c : git_oid → git_commit)
    (h0 : repository.git_repository_is_empty = 0)
    (hn : repository.git_revwalk_new = .ok ())
    (h1 : repository.git_revwalk_push_head 0 = .ok ⟨ids, GIT_ITEROVER⟩)
    (h2 : repository.git_revwalk_push_head 1 = .ok ⟨ids, GIT_ITEROVER⟩)
    (hl : ∀ id ∈ ids, repository.git_commit_lookup id = .ok (c id))
    (hid : ∀ id ∈ ids, (c id).id = id) :
    (number_of_revisions ⟨ids, GIT_ITEROVER⟩ [.revwalk_new, .push_head]).1 = ids.length
      ∧ (revisions repository).1
        = .ok (ids.map (fun id => some
            { hex := id
              author := (c id).author
              committer := (c id).committer
              summary := (c id).summary
              message := (c id).message }))
      ∧ stores (revisions repository).2 = List.range ids.length := by
  have hc : (number_of_revisions ⟨ids, GIT_ITEROVER⟩
      [RevEvent.revwalk_new, RevEvent.push_head]).1 = ids.length := by
    simp [number_of_revisions, number_of_revisions_loop_fst]
  refine ⟨hc, ?_⟩
  obtain ⟨tr', hr, hs⟩ := revisions_loop_ok repository c ids [] ids.length
    ((number_of_revisions ⟨ids, GIT_ITEROVER⟩ [RevEvent.revwalk_new, RevEvent.push_head]).2
      ++ [RevEvent.reset, RevEvent.push_head]) hl (Nat.le_refl _)
  simp only [List.map_nil, List.nil_append, List.length_nil, Nat.sub_self,
    List.replicate_zero, List.append_nil] at hr
  have hmap : ids.map (fun id => init_commit (c id))
      = ids.map (fun id =>
          ({ hex := id
             author := (c id).author
             committer := (c id).committer
             summary := (c id).summary
             message := (c id).message } : sexp_commit)) := by
    apply List.map_congr_left
    intro id hmem
    simp [init_commit, hid id hmem]
  simp only [revisions, h0, hn, h1, h2, ne_eq, not_true_eq_false, if_false, hc, hr]
  refine ⟨by simp [hmap], ?_⟩
  rw [stores_append, hs, stores_append]
  simp [number_of_revisions, number_of_revisions_loop_stores, stores, List.range_eq_range']

/-- Witness of C14 on a sample repository with two commits. -/
theorem revisions_two_pass_witness :
    (number_of_revisions ⟨[sample_parent_b, sample_parent_a], GIT_ITEROVER⟩
        [.revwalk_new, .push_head]).1 = [sample_parent_b, sample_parent_a].length
      ∧ (revisions (sample_revwalk_repository
            ⟨[sample_parent_b, sample_parent_a], GIT_ITEROVER⟩
            ⟨[sample_parent_b, sample_parent_a], GIT_ITEROVER⟩)).1
          = .ok ([sample_parent_b, sample_parent_a].map (fun id => some
              { hex := id
                author := (sample_commit id).author
                committer := (sample_commit id).committer
                summary := (sample_commit id).summary
                message := (sample_commit id).message }))
      ∧ stores (revisions (sample_revwalk_repository
            ⟨[sample_parent_b, sample_parent_a], GIT_ITEROVER⟩
            ⟨[sample_parent_b, sample_parent_a], GIT_ITEROVER⟩)).2
          = List.range [sample_parent_b, sample_parent_a].length :=
  revisions_two_pass
    (sample_revwalk_repository ⟨[sample_parent_b, sample_parent_a], GIT_ITEROVER⟩
      ⟨[sample_parent_b, sample_parent_a], GIT_ITEROVER⟩)
    [sample_parent_b, sample_parent_a] sample_commit rfl rfl rfl rfl
    (fun _ _ => rfl) (fun _ _ => rfl)

/-- C15, the code at the failing input. The walker yields one commit and then
reports the error -1 in the counting pass, and yields the same commit and the
end of iteration in the second pass: `revisions` takes the error for the end
of the history and returns the list of one commit without raising an error. -/
theorem revisions_counting_error_ignored :
    (revisions (sample_revwalk_repository ⟨[sample_parent_a], -1⟩
        ⟨[sample_parent_a], GIT_ITEROVER⟩)).1
      = .ok [some (init_commit (sample_commit sample_parent_a))] :=
  rfl

/-- The behaviour of `tags` on tag objects that have a message. When
`git_tag_list` yields `names`: if every name resolves to an annotated tag with
a message, `tags` returns one descriptor per name in the order of `names`,
with the message, name, tagger and target id of the tag of that name; and if
the names before `n` do so and `n` resolves to an object for which
`git_tag_lookup` fails, `tags` raises the error of the store and returns no
list. -/
theorem tags_all_or_nothing (repository : tags_repository) (names : List String)
    (t : String → git_tag) (hlist : repository.git_tag_list = .ok names) :
    ((∀ n ∈ names, resolves_to_tag repository n (t n))
        → tags repository
            = .ok (names.map (fun n => (t n).message.map (fun message =>
                { message := message
                  name := (t n).name
                  tagger := (t n).tagger
                  target := (t n).target_id })))
          ∧ ∀ n ∈ names, (t n).message ≠ none)
      ∧ ∀ pre n post, names = pre ++ n :: post
          → (∀ m ∈ pre, resolves_to_tag repository m (t m))
          → resolves_to_other repository n
          → ∃ err, tags repository = .error (.git err) := by
  have hinit : (fun n => init_tag (t n))
      = fun n => (t n).message.map (fun message =>
          ({ message := message
             name := (t n).name
             tagger := (t n).tagger
             target := (t n).target_id } : sexp_tag)) := by
    funext n
    cases h : (t n).message <;> simp [init_tag, mkChar, h]
  constructor
  · intro hall
    constructor
    · have h := tags_loop_prefix_ok repository t names [] names.length [] hall (Nat.le_refl _)
      simp only [List.append_nil, List.nil_append, List.length_nil, Nat.sub_self,
        List.replicate_zero, Nat.zero_add] at h
      simp only [tags, hlist, h, tags_loop, hinit]
    · intro n hn
      obtain ⟨_, _, _, _, _, hm⟩ := hall n hn
      exact hm
  · intro pre n post hnames hpre hbad
    obtain ⟨reference, oid, err, hd, ht, hl⟩ := hbad
    refine ⟨err, ?_⟩
    have hlen : pre.length ≤ names.length := by
      rw [hnames]; simp
    have h := tags_loop_prefix_ok repository t pre [] names.length (n :: post) hpre hlen
    simp only [List.nil_append, List.length_nil, Nat.zero_add] at h
    simp only [tags, hlist]
    rw [hnames] at h ⊢
    rw [h]
    simp only [tags_loop, hd, ht, hl]

/-- An instance of the behaviour of `tags` on tags with a message: the sample
repository with the one annotated tag `v1`, and the one with `v1` followed by
the lightweight tag `light`. -/
theorem tags_all_or_nothing_witness :
    tags (sample_tags_repository ["v1"])
        = .ok [some { message := "release 1", name := "v1",
                      tagger := some sample_signature, target := sample_parent_a }]
      ∧ ∃ err, tags (sample_tags_repository ["v1", "light"]) = .error (.git err) :=
  ⟨((tags_all_or_nothing (sample_tags_repository ["v1"]) ["v1"] (fun _ => sample_tag) rfl).1
      (fun n hn => by
        rw [List.mem_singleton] at hn
        subst hn
        exact ⟨_, _, rfl, rfl, rfl, by decide⟩)).1,
    (tags_all_or_nothing (sample_tags_repository ["v1", "light"]) ["v1", "light"]
      (fun _ => sample_tag) rfl).2 ["v1"] "light" [] rfl
      (fun n hn => by
        rw [List.mem_singleton] at hn
        subst hn
        exact ⟨_, _, rfl, rfl, rfl, by decide⟩)
      ⟨_, _, _, rfl, rfl, rfl⟩⟩

/-- C18, the code at the failing input. The one tag name `v2` of the sample
repository resolves to an annotated tag: `git_reference_dwim` finds a direct
reference and `git_tag_lookup` yields the tag object. That object has no
message, `init_tag` passes the `NULL` of `git_tag_message` to `mkChar`, and
`tags` ends in a memory fault instead of returning the one tag. The same call
on the annotated tag `v1`, which has a message, returns its descriptor. -/
theorem tags_faults_on_tag_without_message :
    sample_tags_repository_without_message.git_tag_list = .ok ["v2"]
      ∧ (∃ reference,
          sample_tags_repository_without_message.git_reference_dwim "v2" = .ok reference
            ∧ reference.target = some sample_parent_b)
      ∧ sample_tags_repository_without_message.git_tag_lookup sample_parent_b
          = .ok sample_tag_without_message
      ∧ sample_tag_without_message.message = none
      ∧ init_tag sample_tag_without_message = none
      ∧ tags sample_tags_repository_without_message = .error .fault
      ∧ tags (sample_tags_repository ["v1"])
          = .ok [some { message := "release 1", name := "v1",
                        tagger := some sample_signature, target := sample_parent_a }] :=
  ⟨rfl, ⟨_, rfl, rfl⟩, rfl, rfl, rfl, rfl, rfl⟩

/-- C19, the code at the failing inputs. When the configuration cannot be
opened `config` returns normally with no variable set, and when the store
refuses the second variable `config` returns normally with only the first one
set. -/
theorem config_returns_normally_on_failure :
    sample_config_repository_closed.git_repository_config = .error (-1)
      ∧ config sample_config_repository_closed [("user.name", "Alice")] = (.ok (), [])
      ∧ sample_config_repository_locked.git_config_set_string "user.email" "a@example.org"
          = .error (-1)
      ∧ config sample_config_repository_locked
            [("user.name", "Alice"), ("user.email", "a@example.org"), ("core.bare", "false")]
          = (.ok (), [("user.name", "Alice")]) :=
  ⟨rfl, rfl, rfl, rfl⟩

/-! ## Lemmas on branches -/

theorem branches_loop_prefix (repository : branches_repository) :
    ∀ (pre : List (git_reference × Int)) (list : List (Option sexp_branch)) (i : Nat)
      (tr : List ResourceEvent),
      (∀ x ∈ pre, item_stored repository x) → i + pre.length ≤ list.length →
      ∃ list' tr', list'.length = list.length
        ∧ ∀ rest stop, branches_loop repository (pre ++ rest) stop list i tr
            = branches_loop repository rest stop list' (i + pre.length) tr' := by
  intro pre
  induction pre with
  | nil => intro list i tr _ _; exact ⟨list, tr, rfl, fun _ _ => rfl⟩
  | cons x pre' ih =>
    intro list i tr hst hlen
    obtain ⟨branch, hb⟩ := hst x (List.mem_cons_self _ _)
    obtain ⟨tr₁, hb⟩ := hb tr
    simp only [List.length_cons] at hlen
    have hset : SET_VECTOR_ELT list i branch = some (list.set i (some branch)) :=
      SET_VECTOR_ELT_of_lt list i branch (by omega)
    obtain ⟨list', tr', hl', hloop⟩ := ih (list.set i (some branch)) (i + 1)
      (tr₁ ++ [ResourceEvent.release Handle.reference])
      (fun y hy => hst y (List.mem_cons_of_mem _ hy)) (by simp; omega)
    refine ⟨list', tr', by simpa using hl', ?_⟩
    intro rest stop
    obtain ⟨ref, type⟩ := x
    simp only [List.cons_append, branches_loop, hb, hset, List.length_cons, List.append_eq]
    rw [hloop rest stop, Nat.add_assoc, Nat.add_comm 1]

theorem branches_of_loop_cleanup (repository : branches_repository) (flags : Int)
    (items₀ items : List (git_reference × Int)) (stop : Int) (f : Failure)
    (hcount : repository.git_branch_iterator_new 0 flags = .ok ⟨items₀, GIT_ITEROVER⟩)
    (hiter : repository.git_branch_iterator_new 1 flags = .ok ⟨items, stop⟩)
    (hloop : ∀ tr, (branches_loop repository items stop (List.replicate items₀.length none) 0
      tr).1 = .error (.cleanup f)) :
    (branches repository flags).1 = .error f := by
  have hn : ∀ (l : List (git_reference × Int)) (n : Nat) (tr : List ResourceEvent),
      (number_of_branches_loop l n tr).1 = n + l.length := by
    intro l
    induction l with
    | nil => intro n tr; simp [number_of_branches_loop]
    | cons _ rest ih =>
      intro n tr
      simp only [number_of_branches_loop, ih, List.length_cons]
      omega
  simp only [branches, number_of_branches, hcount, hiter, ne_eq, not_true_eq_false, if_false,
    hn, Nat.zero_add]
  generalize (number_of_branches_loop items₀ 0 [ResourceEvent.acquire Handle.iterator]).2
    ++ [ResourceEvent.release Handle.iterator] ++ [ResourceEvent.acquire Handle.iterator] = T
  have h := hloop T
  cases hr : branches_loop repository items stop (List.replicate items₀.length none) 0 T with
  | mk r tr' =>
    rw [hr] at h
    simp only at h
    subst h
    rfl

/-- C16, the claim fails. For the remote branch `origin/master` of a remote
that cannot be loaded, `branches` creates the in-memory remote with the remote
name as its URL and reports that name, `origin`, as the URL of the branch. -/
theorem branches_inmemory_url_is_name :
    (branches (sample_branches_repository [sample_remote_branch] (.ok ()) 0) 0).1
      = .ok [some { name := "refs/remotes/origin/master", shorthand := "origin/master",
                    type := some GIT_REF_OID, hex := some sample_parent_a, target := none,
                    remote := some "origin", url := some "origin", head := some false }] :=
  rfl

/-- C16 as amended. When the loop of `branches` is at a remote branch whose
remote cannot be loaded and whose in-memory remote is created, it does not
fail there: it stores in slot `i` a branch whose remote name is the name given
by `git_branch_remote_name` for its reference name and whose URL is that same
name, and goes on with the next reference. -/
theorem branches_inmemory_remote (repository : branches_repository) (ref : git_reference)
    (rest : List (git_reference × Int)) (stop : Int) (list : List (Option sexp_branch))
    (i : Nat) (tr : List ResourceEvent) (b : sexp_branch) (name : String) (e : Int)
    (hinit : init_reference ref = .ok b)
    (hname : repository.git_branch_remote_name ref.name = .ok name)
    (hmalloc : repository.malloc (name.utf8ByteSize + 1) = true)
    (hload : repository.git_remote_load name = .error e)
    (hcreate : repository.git_remote_create_inmemory_result none (some name) = .ok ())
    (hhead : repository.git_branch_is_head ref = 0 ∨ repository.git_branch_is_head ref = 1)
    (hi : i < list.length) :
    ∃ branch tr',
      branches_loop repository ((ref, GIT_BRANCH_REMOTE) :: rest) stop list i tr
        = branches_loop repository rest stop (list.set i (some branch)) (i + 1) tr'
      ∧ branch.remote = some name ∧ branch.url = some name := by
  have hne : ¬ GIT_BRANCH_REMOTE = GIT_BRANCH_LOCAL := by decide
  rcases hhead with hh | hh
  · refine ⟨{ b with remote := some name, url := some name, head := some false },
      tr ++ [.acquire .reference, .acquire .buffer, .acquire .remote, .release .buffer,
        .release .remote, .release .reference], ?_, rfl, rfl⟩
    simp [branches_loop, branches_item, hinit, hne, branches_remote, hname, hmalloc, hload,
      git_remote_create_inmemory, hcreate, mkChar, hh, SET_VECTOR_ELT, hi]
  · refine ⟨{ b with remote := some name, url := some name, head := some true },
      tr ++ [.acquire .reference, .acquire .buffer, .acquire .remote, .release .buffer,
        .release .remote, .release .reference], ?_, rfl, rfl⟩
    simp [branches_loop, branches_item, hinit, hne, branches_remote, hname, hmalloc, hload,
      git_remote_create_inmemory, hcreate, mkChar, hh, SET_VECTOR_ELT, hi]

/-- Witness of C16 as amended: the remote branch of the sample repository. -/
theorem branches_inmemory_remote_witness :
    ∃ branch tr',
      branches_loop (sample_branches_repository [sample_remote_branch] (.ok ()) 0)
          ((sample_remote_branch.1, GIT_BRANCH_REMOTE) :: []) GIT_ITEROVER [none] 0 []
        = branches_loop (sample_branches_repository [sample_remote_branch] (.ok ()) 0)
            [] GIT_ITEROVER ([none].set 0 (some branch)) (0 + 1) tr'
      ∧ branch.remote = some "origin" ∧ branch.url = some "origin" :=
  branches_inmemory_remote (sample_branches_repository [sample_remote_branch] (.ok ()) 0)
    sample_remote_branch.1 [] GIT_ITEROVER [none] 0 []
    { name := "refs/remotes/origin/master", shorthand := "origin/master",
      type := some GIT_REF_OID, hex := some sample_parent_a, target := none,
      remote := none, url := none, head := none }
    "origin" (-3) rfl rfl rfl rfl rfl (Or.inl rfl) (by decide)

theorem branches_loop_bad_type (repository : branches_repository) (ref : git_reference)
    (type : Int) (rest : List (git_reference × Int)) (stop : Int)
    (list : List (Option sexp_branch)) (i : Nat) (tr : List ResourceEvent) (b : sexp_branch)
    (hinit : init_reference ref = .ok b) (hl : type ≠ GIT_BRANCH_LOCAL)
    (hr : type ≠ GIT_BRANCH_REMOTE) :
    (branches_loop repository ((ref, type) :: rest) stop list i tr).1
      = .error (.cleanup (.message err_unexpected_type_of_branch)) := by
  simp [branches_loop, branches_item, hinit, hl, hr]

theorem branches_loop_bad_head (repository : branches_repository) (ref : git_reference)
    (type : Int) (rest : List (git_reference × Int)) (stop : Int)
    (list : List (Option sexp_branch)) (i : Nat) (tr : List ResourceEvent) (b : sexp_branch)
    (hinit : init_reference ref = .ok b)
    (htype : type = GIT_BRANCH_LOCAL ∨ (type = GIT_BRANCH_REMOTE
      ∧ ∀ tr, ∃ b' tr', branches_remote repository ref.name b tr = (.ok b', tr')))
    (h0 : repository.git_branch_is_head ref ≠ 0) (h1 : repository.git_branch_is_head ref ≠ 1) :
    (branches_loop repository ((ref, type) :: rest) stop list i tr).1
      = .error (.cleanup (.message err_unexpected_head_of_branch)) := by
  rcases htype with ht | ⟨ht, hrem⟩
  · simp [branches_loop, branches_item, hinit, ht, h0, h1]
  · have hne : ¬ GIT_BRANCH_REMOTE = GIT_BRANCH_LOCAL := by decide
    obtain ⟨b', tr', hb⟩ := hrem (tr ++ [ResourceEvent.acquire Handle.reference])
    simp [branches_loop, branches_item, hinit, ht, hne, hb, h0, h1]

/-- C17, the claim fails. A call of `commit` with nothing staged fails with the
message `Nothing added to commit`, which is not the message
`nothing staged to commit`. -/
theorem commit_nothing_added_message :
    count_staged_changes [sample_entry_untracked] = 0
      ∧ (commit (sample_repository [sample_entry_untracked] 1) "edit" sample_signature
          sample_signature []).1 = .error (.message "Nothing added to commit")
      ∧ "Nothing added to commit" ≠ "nothing staged to commit" :=
  ⟨by decide, rfl, by decide⟩

/-- C17 as amended. The precondition failures carry the fixed messages of the
code. `commit` with nothing staged fails with `Nothing added to commit` and
changes nothing. `branches` fails with `Unexpected type of branch` when it
reaches a reference, initialised by `init_reference`, whose branch type is
neither local nor remote, and with `Unexpected head of branch` when it reaches
a reference that passes the switch on the type and for which
`git_branch_is_head` returns neither 0 nor 1. In each case no list or commit
is returned. -/
theorem precondition_messages :
    (err_nothing_added_to_commit = "Nothing added to commit"
      ∧ err_unexpected_type_of_branch = "Unexpected type of branch"
      ∧ err_unexpected_head_of_branch = "Unexpected head of branch")
    ∧ (∀ (repository : git_repository) (message : String) (author committer : git_signature)
        (parent_list : List String) (sig_author sig_committer : git_signature)
        (l : List git_status_entry),
        repository.git_signature_new author.name author.email author.time author.offset
          = .ok sig_author
        → repository.git_signature_new committer.name committer.email committer.time
            committer.offset = .ok sig_committer
        → repository.git_status_list_new GIT_STATUS_SHOW_INDEX_ONLY 0 = .ok l
        → count_staged_changes l = 0
        → commit repository message author committer parent_list
            = (.error (.message err_nothing_added_to_commit), []))
    ∧ (∀ (repository : branches_repository) (flags : Int)
        (items₀ pre rest : List (git_reference × Int)) (ref : git_reference) (type stop : Int)
        (b : sexp_branch),
        repository.git_branch_iterator_new 0 flags = .ok ⟨items₀, GIT_ITEROVER⟩
        → repository.git_branch_iterator_new 1 flags = .ok ⟨pre ++ (ref, type) :: rest, stop⟩
        → (∀ x ∈ pre, item_stored repository x)
        → pre.length ≤ items₀.length
        → init_reference ref = .ok b
        → type ≠ GIT_BRANCH_LOCAL
        → type ≠ GIT_BRANCH_REMOTE
        → (branches repository flags).1 = .error (.message err_unexpected_type_of_branch))
    ∧ (∀ (repository : branches_repository) (flags : Int)
        (items₀ pre rest : List (git_reference × Int)) (ref : git_reference) (type stop : Int)
        (b : sexp_branch),
        repository.git_branch_iterator_new 0 flags = .ok ⟨items₀, GIT_ITEROVER⟩
        → repository.git_branch_iterator_new 1 flags = .ok ⟨pre ++ (ref, type) :: rest, stop⟩
        → (∀ x ∈ pre, item_stored repository x)
        → pre.length ≤ items₀.length
        → init_reference ref = .ok b
        → (type = GIT_BRANCH_LOCAL ∨ (type = GIT_BRANCH_REMOTE
            ∧ ∀ tr, ∃ b' tr', branches_remote repository ref.name b tr = (.ok b', tr')))
        → repository.git_branch_is_head ref ≠ 0
        → repository.git_branch_is_head ref ≠ 1
        → (branches repository flags).1 = .error (.message err_unexpected_head_of_branch)) := by
  refine ⟨⟨rfl, rfl, rfl⟩, ?_, ?_, ?_⟩
  · intro repository message author committer parent_list sig_author sig_committer l ha hc hs h0
    unfold commit
    rw [ha, hc, hs]
    simp [(commit_changes_in_index_eq_zero l).mpr h0]
  · intro repository flags items₀ pre rest ref type stop b hcount hiter hpre hlen hinit hl hr
    apply branches_of_loop_cleanup repository flags items₀ _ stop _ hcount hiter
    intro tr
    obtain ⟨list', tr', _, hloop⟩ := branches_loop_prefix repository pre
      (List.replicate items₀.length none) 0 tr hpre (by simpa using hlen)
    rw [hloop]
    exact branches_loop_bad_type repository ref type rest stop list' _ tr' b hinit hl hr
  · intro repository flags items₀ pre rest ref type stop b hcount hiter hpre hlen hinit htype
      h0 h1
    apply branches_of_loop_cleanup repository flags items₀ _ stop _ hcount hiter
    intro tr
    obtain ⟨list', tr', _, hloop⟩ := branches_loop_prefix repository pre
      (List.replicate items₀.length none) 0 tr hpre (by simpa using hlen)
    rw [hloop]
    exact branches_loop_bad_head repository ref type rest stop list' _ tr' b hinit htype h0 h1

/-- Witness of C17 as amended: a commit with only an untracked file, a branch
iteration whose second reference has the branch type 3, and a branch for which
`git_branch_is_head` returns -1. -/
theorem precondition_messages_witness :
    commit (sample_repository [sample_entry_untracked] 1) "edit" sample_signature
        sample_signature []
      = (.error (.message err_nothing_added_to_commit), [])
    ∧ (branches (sample_branches_repository
          [sample_local_branch, (sample_reference "refs/odd" "odd", 3)] (.ok ()) 0) 0).1
        = .error (.message err_unexpected_type_of_branch)
    ∧ (branches (sample_branches_repository [sample_local_branch] (.ok ()) (-1)) 0).1
        = .error (.message err_unexpected_head_of_branch) :=
  ⟨precondition_messages.2.1 (sample_repository [sample_entry_untracked] 1) "edit"
      sample_signature sample_signature [] sample_signature sample_signature
      [sample_entry_untracked] rfl rfl rfl (by decide),
    precondition_messages.2.2.1
      (sample_branches_repository
        [sample_local_branch, (sample_reference "refs/odd" "odd", 3)] (.ok ()) 0) 0
      [sample_local_branch, (sample_reference "refs/odd" "odd", 3)] [sample_local_branch] []
      (sample_reference "refs/odd" "odd") 3 GIT_ITEROVER
      { name := "refs/odd", shorthand := "odd", type := some GIT_REF_OID,
        hex := some sample_parent_a, target := none, remote := none, url := none,
        head := none }
      rfl rfl
      (fun x hx => by
        rw [List.mem_singleton] at hx
        subst hx
        exact ⟨{ name := "refs/heads/master", shorthand := "master",
                 type := some GIT_REF_OID, hex := some sample_parent_a, target := none,
                 remote := none, url := none, head := some false },
          fun tr => ⟨tr ++ [ResourceEvent.acquire Handle.reference], rfl⟩⟩)
      (by decide) rfl (by decide) (by decide),
    precondition_messages.2.2.2
      (sample_branches_repository [sample_local_branch] (.ok ()) (-1)) 0
      [sample_local_branch] [] [] sample_local_branch.1 GIT_BRANCH_LOCAL GIT_ITEROVER
      { name := "refs/heads/master", shorthand := "master", type := some GIT_REF_OID,
        hex := some sample_parent_a, target := none, remote := none, url := none,
        head := none }
      rfl rfl (fun x hx => by simp at hx) (by decide) rfl (Or.inl rfl) (by decide)
      (by decide)⟩

/-- C20, the code at the failing inputs. When `git_branch_is_head` returns -1
for the one local branch, `branches` leaves through `cleanup` with the
reference of the loop acquired and not released (two acquisitions, counting
the one of `number_of_branches`, and one release). When the in-memory remote
of the one remote branch cannot be created, it leaves with that reference and
the remote-name buffer acquired and not released. -/
theorem branches_leaks_on_error_exits :
    (branches (sample_branches_repository [sample_local_branch] (.ok ()) (-1)) 0).1
        = .error (.message err_unexpected_head_of_branch)
      ∧ acquisitions .reference
          (branches (sample_branches_repository [sample_local_branch] (.ok ()) (-1)) 0).2 = 2
      ∧ releases .reference
          (branches (sample_branches_repository [sample_local_branch] (.ok ()) (-1)) 0).2 = 1
      ∧ (branches (sample_branches_repository [sample_remote_branch] (.error (-1)) 0) 0).1
          = .error (.git (-1))
      ∧ acquisitions .reference
          (branches (sample_branches_repository [sample_remote_branch] (.error (-1)) 0) 0).2
          = 2
      ∧ releases .reference
          (branches (sample_branches_repository [sample_remote_branch] (.error (-1)) 0) 0).2
          = 1
      ∧ acquisitions .buffer
          (branches (sample_branches_repository [sample_remote_branch] (.error (-1)) 0) 0).2
          = 1
      ∧ releases .buffer
          (branches (sample_branches_repository [sample_remote_branch] (.error (-1)) 0) 0).2
          = 0 :=
  ⟨rfl, by decide, by decide, rfl, by decide, by decide, by decide, by decide⟩

/-! ## Lemmas on clone_progress -/

theorem received_percent_bound (r t : Nat) (h : r < t) :
    udiv ((100 * r) % 2 ^ 32) t = some ((100 * r) % 2 ^ 32 / t)
      ∧ (100 * r) % 2 ^ 32 / t ≤ 99
      ∧ to_int ((100 * r) % 2 ^ 32 / t) = (((100 * r) % 2 ^ 32 / t : Nat) : Int) := by
  have ht : t ≠ 0 := by omega
  have hq : (100 * r) % 2 ^ 32 / t < 100 := by
    rw [Nat.div_lt_iff_lt_mul (by omega)]
    have := Nat.mod_le (100 * r) (2 ^ 32)
    omega
  refine ⟨by simp [udiv, ht], by omega, ?_⟩
  generalize (100 * r) % 2 ^ 32 / t = q at hq
  have hm : q % 2 ^ 32 = q := Nat.mod_eq_of_lt (by omega)
  unfold to_int
  rw [hm]
  have hlt : q < 2 ^ 31 := by omega
  rw [if_pos hlt]

theorem clone_progress_step (progress : git_transfer_progress) (pd : progress_data) :
    ∃ pd' out, clone_progress progress pd = some (0, pd', out)
      ∧ (pd'.received_progress = pd.received_progress
          ∨ (pd'.received_progress = pd.received_progress + 10 ∧ pd.received_progress < 99))
      ∧ (pd'.received_done = pd.received_done
          ∨ (pd.received_done = 0 ∧ pd'.received_done = 1))
      ∧ (out.filter ProgressLine.is_done).length ≤ 1
      ∧ (pd.received_done ≠ 0 → out.filter ProgressLine.is_done = [])
      ∧ (pd'.received_done = 0 → out.filter ProgressLine.is_done = []) := by
  unfold clone_progress
  by_cases hlt : progress.received_objects < progress.total_objects
  · obtain ⟨hdiv, hq, hint⟩ :=
      received_percent_bound progress.received_objects progress.total_objects hlt
    simp only [hlt, if_true, hdiv, Option.bind_eq_bind, Option.some_bind, hint]
    split
    · rename_i hgt
      refine ⟨_, _, rfl, Or.inr ⟨rfl, ?_⟩, Or.inl rfl, ?_, ?_, ?_⟩
      · have : ((100 * progress.received_objects % 2 ^ 32 / progress.total_objects : Nat) : Int)
            ≤ 99 := by exact_mod_cast hq
        omega
      · simp [ProgressLine.is_done]
      · intro _; simp [ProgressLine.is_done]
      · intro _; simp [ProgressLine.is_done]
    · exact ⟨_, _, rfl, Or.inl rfl, Or.inl rfl, by simp, by simp, by simp⟩
  · simp only [hlt, if_false]
    split
    · rename_i hd
      refine ⟨_, _, rfl, Or.inl rfl, Or.inr ⟨hd, rfl⟩, by simp [ProgressLine.is_done], ?_, ?_⟩
      · intro h; exact absurd hd h
      · intro h; simp at h
    · exact ⟨_, _, rfl, Or.inl rfl, Or.inl rfl, by simp, by simp, by simp⟩

theorem clone_progress_calls_spec (records : List git_transfer_progress) :
    ∀ pd : progress_data, ∃ pd' out, clone_progress_calls records pd = some (pd', out)
      ∧ pd.received_progress ≤ pd'.received_progress
      ∧ (out.filter ProgressLine.is_done).length ≤ 1
      ∧ (pd.received_done ≠ 0 → out.filter ProgressLine.is_done = [])
      ∧ (pd.received_done ≠ 0 → pd'.received_done ≠ 0) := by
  induction records with
  | nil => intro pd; exact ⟨pd, [], rfl, Int.le_refl _, by simp, by simp, fun h => h⟩
  | cons progress rest ih =>
    intro pd
    obtain ⟨pd₁, out₁, h1, hp, hd, hlen, hnone, hzero⟩ := clone_progress_step progress pd
    obtain ⟨pd₂, out₂, h2, hp2, hlen2, hnone2, hkeep2⟩ := ih pd₁
    refine ⟨pd₂, out₁ ++ out₂, ?_, ?_, ?_, ?_, ?_⟩
    · simp [clone_progress_calls, h1, h2]
    · rcases hp with hp | ⟨hp, _⟩ <;> omega
    · rw [List.filter_append, List.length_append]
      by_cases hz : pd₁.received_done = 0
      · rw [hzero hz]; simpa using hlen2
      · rw [hnone2 hz]; simpa using hlen
    · intro h
      have h1' : pd₁.received_done ≠ 0 := by
        rcases hd with hd | ⟨hd, _⟩
        · rw [hd]; exact h
        · exact absurd hd h
      rw [List.filter_append, hnone h, hnone2 h1']
      rfl
    · intro h
      have h1' : pd₁.received_done ≠ 0 := by
        rcases hd with hd | ⟨hd, _⟩
        · rw [hd]; exact h
        · exact absurd hd h
      exact hkeep2 h1'

/-- C21. For every progress record and every payload, `clone_progress` returns
0. It leaves `received_progress` as it is or adds 10 to it (and then it was
below 99), and it leaves `received_done` as it is or sets it from 0 to 1. Over
the calls of one transfer `received_progress` never decreases and the
completion line is printed at most once, and not at all when `received_done`
is already set. -/
theorem clone_progress_returns_zero (progress : git_transfer_progress) (pd : progress_data) :
    (∃ pd' out, clone_progress progress pd = some (0, pd', out)
      ∧ (pd'.received_progress = pd.received_progress
          ∨ (pd'.received_progress = pd.received_progress + 10 ∧ pd.received_progress < 99))
      ∧ (pd'.received_done = pd.received_done
          ∨ (pd.received_done = 0 ∧ pd'.received_done = 1)))
    ∧ ∀ records : List git_transfer_progress,
        ∃ pd' out, clone_progress_calls records pd = some (pd', out)
          ∧ pd.received_progress ≤ pd'.received_progress
          ∧ (out.filter ProgressLine.is_done).length ≤ 1
          ∧ (pd.received_done ≠ 0 → out.filter ProgressLine.is_done = []) := by
  constructor
  · obtain ⟨pd', out, h, hp, hd, _⟩ := clone_progress_step progress pd
    exact ⟨pd', out, h, hp, hd⟩
  · intro records
    obtain ⟨pd', out, h, hp, hl, hn, _⟩ := clone_progress_calls_spec records pd
    exact ⟨pd', out, h, hp, hl, hn⟩

theorem clone_progress_receiving (progress : git_transfer_progress) (pd : progress_data)
    (hlt : progress.received_objects < progress.total_objects) :
    clone_progress progress pd
      = if to_int ((100 * progress.received_objects) % 2 ^ 32 / progress.total_objects)
            > pd.received_progress then
          some (0, { pd with received_progress := pd.received_progress + 10 },
            [.receiving
              (to_int ((100 * progress.received_objects) % 2 ^ 32 / progress.total_objects))
              progress.received_objects progress.total_objects
              (to_int (progress.received_bytes / 1024))])
        else some (0, pd, []) := by
  obtain ⟨hdiv, _, _⟩ :=
    received_percent_bound progress.received_objects progress.total_objects hlt
  simp only [clone_progress, hlt, if_true, hdiv, Option.bind_eq_bind, Option.some_bind]

theorem clone_progress_completion (progress : git_transfer_progress) (pd : progress_data)
    (hge : ¬ progress.received_objects < progress.total_objects) :
    clone_progress progress pd
      = if pd.received_done = 0 then
          some (0, { pd with received_done := 1 },
            [.done progress.received_objects progress.total_objects
              (to_int (progress.received_bytes / 1024))])
        else some (0, pd, []) := by
  simp only [clone_progress, hge, if_false]

/-- C22. The call `clone_progress` never divides by zero. When
`received_objects < total_objects`, `total_objects` is positive and the call
computes the percentage `q`, the unsigned quotient of `100 * received_objects`
by `total_objects`: `q` is at most 99 (whether or not the unsigned product
wraps), it is the exact quotient when the product does not wrap, and the call
compares `q` with `received_progress` and prints `q`. When
`received_objects < total_objects` does not hold, in particular when
`total_objects = 0`, the call takes the completion branch and computes no
percentage. Every percentage that `clone_progress` prints lies in 0..99. -/
theorem clone_progress_division_guarded (progress : git_transfer_progress)
    (pd : progress_data) :
    (clone_progress progress pd).isSome = true
      ∧ (progress.received_objects < progress.total_objects →
          0 < progress.total_objects
          ∧ ∃ q, udiv ((100 * progress.received_objects) % 2 ^ 32) progress.total_objects
              = some q
            ∧ q ≤ 99 ∧ 0 ≤ to_int q ∧ to_int q ≤ 99
            ∧ (100 * progress.received_objects < 2 ^ 32 →
                q = 100 * progress.received_objects / progress.total_objects)
            ∧ clone_progress progress pd
              = if to_int q > pd.received_progress then
                  some (0, { pd with received_progress := pd.received_progress + 10 },
                    [.receiving (to_int q) progress.received_objects
                      progress.total_objects (to_int (progress.received_bytes / 1024))])
                else some (0, pd, []))
      ∧ (¬ progress.received_objects < progress.total_objects →
          clone_progress progress pd
            = if pd.received_done = 0 then
                some (0, { pd with received_done := 1 },
                  [.done progress.received_objects progress.total_objects
                    (to_int (progress.received_bytes / 1024))])
              else some (0, pd, []))
      ∧ (progress.total_objects = 0 →
          clone_progress progress pd
            = if pd.received_done = 0 then
                some (0, { pd with received_done := 1 },
                  [.done progress.received_objects progress.total_objects
                    (to_int (progress.received_bytes / 1024))])
              else some (0, pd, []))
      ∧ (∀ (ret : Int) (pd' : progress_data) (out : List ProgressLine),
          clone_progress progress pd = some (ret, pd', out) →
          ∀ (p : Int) (received total : Nat) (kbytes : Int),
            ProgressLine.receiving p received total kbytes ∈ out →
            0 ≤ p ∧ p ≤ 99
              ∧ progress.received_objects < progress.total_objects
              ∧ received = progress.received_objects ∧ total = progress.total_objects
              ∧ (100 * progress.received_objects < 2 ^ 32 →
                  p = ((100 * progress.received_objects / progress.total_objects : Nat)
                        : Int))) := by
  refine ⟨?_, ?_, ?_, ?_, ?_⟩
  · obtain ⟨pd', out, h, _⟩ := clone_progress_step progress pd
    simp [h]
  · intro hlt
    obtain ⟨hdiv, hq, hint⟩ :=
      received_percent_bound progress.received_objects progress.total_objects hlt
    refine ⟨by omega, _, hdiv, hq, ?_, ?_, ?_, ?_⟩
    · rw [hint]; exact Int.ofNat_nonneg _
    · rw [hint]; exact_mod_cast hq
    · intro hno
      rw [Nat.mod_eq_of_lt hno]
    · exact clone_progress_receiving progress pd hlt
  · intro hge
    exact clone_progress_completion progress pd hge
  · intro h0
    exact clone_progress_completion progress pd (by omega)
  · intro ret pd' out hcall p received total kbytes hmem
    by_cases hlt : progress.received_objects < progress.total_objects
    · obtain ⟨_, hq, hint⟩ :=
        received_percent_bound progress.received_objects progress.total_objects hlt
      rw [clone_progress_receiving progress pd hlt] at hcall
      split at hcall
      · simp only [Option.some.injEq, Prod.mk.injEq] at hcall
        obtain ⟨_, _, hout⟩ := hcall
        rw [← hout, List.mem_singleton] at hmem
        injection hmem with hp hr ht _
        refine ⟨?_, ?_, hlt, hr, ht, ?_⟩
        · rw [hp, hint]; exact Int.ofNat_nonneg _
        · rw [hp, hint]; exact_mod_cast hq
        · intro hno
          rw [hp, hint, Nat.mod_eq_of_lt hno]
      · simp only [Option.some.injEq, Prod.mk.injEq] at hcall
        obtain ⟨_, _, hout⟩ := hcall
        rw [← hout] at hmem
        simp at hmem
    · rw [clone_progress_completion progress pd hlt] at hcall
      split at hcall
      · simp only [Option.some.injEq, Prod.mk.injEq] at hcall
        obtain ⟨_, _, hout⟩ := hcall
        rw [← hout] at hmem
        simp at hmem
      · simp only [Option.some.injEq, Prod.mk.injEq] at hcall
        obtain ⟨_, _, hout⟩ := hcall
        rw [← hout] at hmem
        simp at hmem

/-! ## Lemmas on the untracked and ignored tests -/

theorem items_stored_listed (l : List git_status_entry)
    (hl : ∀ x ∈ l, well_formed x = true) :
    items_stored list_staged_changes_loop count_staged_changes l
        = some (listed staged_label l).length
      ∧ items_stored list_unstaged_changes_loop count_unstaged_changes l
        = some (listed unstaged_label l).length
      ∧ items_stored list_untracked_files_loop count_untracked_files l
        = some (listed untracked_label l).length
      ∧ items_stored list_ignored_files_loop count_ignored_files l
        = some (listed ignored_label l).length := by
  have h1 : ∀ s ∈ l, staged_ok s = true := fun s hs => (well_formed_parts s (hl s hs)).1
  have h2 : ∀ s ∈ l, unstaged_ok s = true :=
    fun s hs => (well_formed_parts s (hl s hs)).2.1
  have h3 : ∀ s ∈ l, untracked_ok s = true :=
    fun s hs => (well_formed_parts s (hl s hs)).2.2.1
  have h4 : ∀ s ∈ l, ignored_ok s = true :=
    fun s hs => (well_formed_parts s (hl s hs)).2.2.2
  simp [items_stored, staged_fill l h1, unstaged_fill l h2, untracked_fill l h3,
    ignored_fill l h4, FillState.final]

theorem new_with_staged_bits (x : Nat) (h0 : 0 < x) (h32 : x < 32) :
    GIT_STATUS_WT_NEW ||| x ≠ GIT_STATUS_WT_NEW
      ∧ GIT_STATUS_WT_NEW ||| x ≠ GIT_STATUS_CURRENT
      ∧ wstatus (GIT_STATUS_WT_NEW ||| x) = none
      ∧ (istatus (GIT_STATUS_WT_NEW ||| x)).isSome = true := by
  interval_cases x <;> decide

theorem listed_untracked_eq (l : List git_status_entry) :
    listed untracked_label l = l.filter (fun s => decide (s.status = GIT_STATUS_WT_NEW)) := by
  unfold listed
  congr 1
  funext s
  simp only [untracked_label]
  split <;> simp_all

theorem listed_ignored_eq (l : List git_status_entry) :
    listed ignored_label l = l.filter (fun s => decide (s.status = GIT_STATUS_IGNORED)) := by
  unfold listed
  congr 1
  funext s
  simp only [ignored_label]
  split <;> simp_all

/-- C23. On a well-formed status list `list_untracked_files` lists exactly the
entries whose status word is `GIT_STATUS_WT_NEW` and `list_ignored_files`
exactly those whose status word is `GIT_STATUS_IGNORED`, in order. An entry
whose status word is WT_NEW together with staged bits `x` (`0 < x < 32`) adds
nothing to the untracked list and nothing to the unstaged list, and adds one
item to the staged list. -/
theorem untracked_ignored_exact (l : List git_status_entry)
    (hwf : ∀ s ∈ l, well_formed s = true) (list : List (Option NamedList))
    (list_index : Nat) (hi : list_index < list.length) :
    (∃ sub, list_untracked_files list list_index l = some (list.set list_index (some sub))
        ∧ sub.elts
          = (l.filter (fun s => decide (s.status = GIT_STATUS_WT_NEW))).map workdir_item)
      ∧ (∃ sub, list_ignored_files list list_index l = some (list.set list_index (some sub))
        ∧ sub.elts
          = (l.filter (fun s => decide (s.status = GIT_STATUS_IGNORED))).map workdir_item)
      ∧ ∀ (l₁ l₂ : List git_status_entry) (s : git_status_entry) (x : Nat),
          l = l₁ ++ s :: l₂ → 0 < x → x < 32 → s.status = GIT_STATUS_WT_NEW ||| x →
          items_stored list_untracked_files_loop count_untracked_files (l₁ ++ s :: l₂)
              = items_stored list_untracked_files_loop count_untracked_files (l₁ ++ l₂)
            ∧ items_stored list_unstaged_changes_loop count_unstaged_changes (l₁ ++ s :: l₂)
              = items_stored list_unstaged_changes_loop count_unstaged_changes (l₁ ++ l₂)
            ∧ ∃ n, items_stored list_staged_changes_loop count_staged_changes (l₁ ++ l₂)
                = some n
              ∧ items_stored list_staged_changes_loop count_staged_changes (l₁ ++ s :: l₂)
                = some (n + 1) := by
  have h3 : ∀ s ∈ l, untracked_ok s = true :=
    fun s hs => (well_formed_parts s (hwf s hs)).2.2.1
  have h4 : ∀ s ∈ l, ignored_ok s = true :=
    fun s hs => (well_formed_parts s (hwf s hs)).2.2.2
  refine ⟨⟨(FillState.final untracked_label workdir_item l).named, ?_, ?_⟩,
    ⟨(FillState.final ignored_label workdir_item l).named, ?_, ?_⟩, ?_⟩
  · rw [list_untracked_files_eq l h3, SET_VECTOR_ELT_of_lt _ _ _ hi]
  · simp only [FillState.named, FillState.final, listed_untracked_eq]
  · rw [list_ignored_files_eq l h4, SET_VECTOR_ELT_of_lt _ _ _ hi]
  · simp only [FillState.named, FillState.final, listed_ignored_eq]
  · intro l₁ l₂ s x hl h0 h32 hs
    subst hl
    have hwf' : ∀ y ∈ l₁ ++ l₂, well_formed y = true := by
      intro y hy
      apply hwf
      rcases List.mem_append.mp hy with h | h
      · exact List.mem_append_left _ h
      · exact List.mem_append_right _ (List.mem_cons_of_mem _ h)
    obtain ⟨a1, a2, a3, _⟩ := items_stored_listed _ hwf
    obtain ⟨b1, b2, b3, _⟩ := items_stored_listed _ hwf'
    obtain ⟨hne, hcur, hw, hi'⟩ := new_with_staged_bits x h0 h32
    have ht : untracked_label s = none := by simp [untracked_label, hs, hne]
    have hu : unstaged_label s = none := by
      unfold unstaged_label
      split
      · rfl
      · rw [hs]; exact hw
    have hst : (staged_label s).isSome = true := by
      unfold staged_label
      rw [hs]
      simp only [hcur, if_false]
      exact hi'
    refine ⟨?_, ?_, _, b1, ?_⟩
    · rw [a3, b3, listed_length_insert, ht]; simp
    · rw [a2, b2, listed_length_insert, hu]; simp
    · rw [a1, listed_length_insert, hst]; simp

/-- Witness of C23: a file removed from the index and created again on disk,
between two entries of the sample status list. -/
theorem untracked_ignored_exact_witness :
    items_stored list_untracked_files_loop count_untracked_files
        ([sample_entry_added_edited] ++ sample_entry_deleted_recreated
          :: [sample_entry_untracked])
        = items_stored list_untracked_files_loop count_untracked_files
            ([sample_entry_added_edited] ++ [sample_entry_untracked])
      ∧ items_stored list_unstaged_changes_loop count_unstaged_changes
          ([sample_entry_added_edited] ++ sample_entry_deleted_recreated
            :: [sample_entry_untracked])
        = items_stored list_unstaged_changes_loop count_unstaged_changes
            ([sample_entry_added_edited] ++ [sample_entry_untracked])
      ∧ ∃ n, items_stored list_staged_changes_loop count_staged_changes
            ([sample_entry_added_edited] ++ [sample_entry_untracked]) = some n
          ∧ items_stored list_staged_changes_loop count_staged_changes
              ([sample_entry_added_edited] ++ sample_entry_deleted_recreated
                :: [sample_entry_untracked]) = some (n + 1) :=
  (untracked_ignored_exact
    ([sample_entry_added_edited] ++ sample_entry_deleted_recreated :: [sample_entry_untracked])
    (by decide) [none] 0 (by decide)).2.2
    [sample_entry_added_edited] [sample_entry_untracked] sample_entry_deleted_recreated
    GIT_STATUS_INDEX_DELETED rfl (by decide) (by decide) (by decide)

/-- C24, the code at the failing input. In `callMethods` the one entry whose
registered number of arguments is not the number of parameters of its function
is `clone`: it is registered with 2 arguments and `clone` has the 3 parameters
`url`, `local_path`, `progress`. -/
theorem callMethods_clone_two_arguments :
    registered_mismatches = [("clone", 2, some 3)] := by
  decide

end Git2r
